import Mathlib

/-!
Verification of the local persistent cache subsystem of the market-research-toolkit
repository (src/ticker_analysis/infrastructure/cache: manager.py, utils.py, config.py).

The Python code is shallowly embedded as executable Lean functions over an explicit
state. Conventions used throughout:

* a Python `dict` is modelled as an association list whose first matching binding is
  the live one, with dict update replacing the first binding in place (`updateA`);
* the filesystem is a map from path to blob content; a blob is either the intact
  serialization of a stored value or corrupt (a partial / damaged file);
* `datetime` values are integers counting seconds, so `timedelta(hours = h)` is
  `h * 3600`;
* fallible filesystem and config operations are driven by explicit oracles (records
  of booleans) enumerating which underlying operation succeeds; every `try/except`
  handler of the source is translated as the corresponding branch on the oracle, so
  each embedded operation is a total function — the source's guarantee that no
  exception escapes the cache API;
* `hashlib.md5(...).hexdigest()[:8]` is modelled by `md5hex8`, a deterministic
  function of the input string (the verified properties depend only on the digest
  being a function, never on specific MD5 values).
-/

namespace MarketCache

/-- Model of a Python runtime value as stored in and retrieved from the cache.
Only the observations made by the cache code matter: `None`-ness, having a
`ticker` attribute, being a list and its length. -/
inductive PyValue where
  | pyNone : PyValue
  | obj (attrs : List String) : PyValue
  | list (xs : List PyValue) : PyValue
  | str (s : String) : PyValue
  | int (n : Int) : PyValue
deriving Repr

/-- Models `data is None`. -/
def isPyNone : PyValue → Bool
  | .pyNone => true
  | _ => false

/-- Models `hasattr(data, "ticker")`: only objects carry attributes. -/
def hasTickerAttr : PyValue → Bool
  | .obj attrs => attrs.contains "ticker"
  | _ => false

/-- Models `isinstance(data, list)`. -/
def isPyList : PyValue → Bool
  | .list _ => true
  | _ => false

/-- Models `len(data)` for list values (the code only takes `len` of lists). -/
def pyListLen : PyValue → Nat
  | .list xs => xs.length
  | _ => 0

/-- Models `os.path.getsize` of the pickle serialization of a value: an
unspecified deterministic size function (no verified property depends on the
actual byte counts, only on the field being copied around faithfully). -/
def pySize : PyValue → Nat
  | .pyNone => 1
  | .obj attrs => 1 + attrs.length
  | .list xs => 1 + xs.length
  | .str s => 1 + s.length
  | .int _ => 2

/-- Models `str.upper()` character-wise (tickers and data types are ASCII, where
`Char.toUpper` agrees with Python's case mapping). -/
def pyUpper (s : String) : String :=
  String.mk (s.data.map Char.toUpper)

/-- Models `str.lower()` character-wise. -/
def pyLower (s : String) : String :=
  String.mk (s.data.map Char.toLower)

/-- Models `str.strip()`: drop whitespace from both ends. -/
def pyStrip (s : String) : String :=
  String.mk (((s.data.dropWhile Char.isWhitespace).reverse.dropWhile
    Char.isWhitespace).reverse)

/-- Models `str.replace(c, r)` for a one-character pattern (the only form the
cache code uses): every occurrence of the character is replaced. -/
def pyReplaceChar (s : String) (c : Char) (r : String) : String :=
  String.mk (s.data.flatMap (fun ch => if ch = c then r.data else [ch]))

/-- Python truthiness of a string: empty is falsy. -/
def strTruthy (s : String) : Bool :=
  !s.data.isEmpty

/-- Python truthiness of an `Optional[str]` argument: `None` and `""` are falsy. -/
def truthy : Option String → Bool
  | none => false
  | some s => strTruthy s

/-- Models `s or "none"` for an optional string (Python truthiness). -/
def orNone (s : Option String) : String :=
  match s with
  | none => "none"
  | some s => if strTruthy s then s else "none"

/-- Models `s.lower() if s else "none"`. -/
def lowerOrNone (s : Option String) : String :=
  match s with
  | none => "none"
  | some s => if strTruthy s then pyLower s else "none"

/-- Models `str.isalnum()` (non-empty and all characters alphanumeric). -/
def pyIsAlnum (s : String) : Bool :=
  !s.data.isEmpty && s.data.all Char.isAlphanum

/-- CacheUtils.sanitize_ticker: uppercase, strip, replace `.` `-` `/` with `_`. -/
def sanitize_ticker (ticker : String) : String :=
  if !strTruthy ticker then ""
  else pyReplaceChar (pyReplaceChar (pyReplaceChar (pyStrip (pyUpper ticker))
    '.' "_") '-' "_") '/' "_"

/-- CacheUtils.is_valid_ticker: non-empty, and after strip+uppercase the length is
between 1 and 10 and the string is alphanumeric once `.` and `-` are removed. -/
def is_valid_ticker (ticker : String) : Bool :=
  if !strTruthy ticker then false
  else
    let t := pyUpper (pyStrip ticker)
    decide (1 ≤ t.data.length) && decide (t.data.length ≤ 10) &&
      pyIsAlnum (pyReplaceChar (pyReplaceChar t '.' "") '-' "")

/-- Models `hashlib.md5(s.encode()).hexdigest()[:8]` as a deterministic digest:
a simple rolling hash rendered as eight hex characters stands in for the MD5
compression function, whose concrete values no verified property depends on. -/
def md5hex8 (s : String) : String :=
  let h := s.data.foldl (fun a c => (a * 131 + c.toNat) % 4294967296) 5381
  String.mk ((Nat.toDigits 16 (4294967296 + h)).take 8)

/-- Python string comparison, code point by code point (lexicographic; a strict
prefix is smaller). -/
def charListLt : List Char → List Char → Bool
  | _, [] => false
  | [], _ :: _ => true
  | a :: as, b :: bs => decide (a < b) || (decide (a = b) && charListLt as bs)

/-- Strict `<` on Python strings. -/
def strLt (a b : String) : Bool :=
  charListLt a.data b.data

/-- Python tuple comparison on `(key, value)` string pairs, as used by
`sorted(params.items())`: first component, then second. -/
def pairLe (a b : String × String) : Bool :=
  strLt a.1 b.1 || (a.1 == b.1 && (strLt a.2 b.2 || a.2 == b.2))

/-- Models `str.join` / `"|".join(...)` as used for the parameter string. -/
def joinSep (sep : String) : List String → String
  | [] => ""
  | x :: rest => rest.foldl (fun acc y => acc ++ sep ++ y) x

/-- CacheUtils.generate_cache_key: build the parameter map (fixed discriminators
mapped to the sentinel "none" when falsy, then the extra keyword parameters),
sort the pairs, join as `k:v` with `|`, digest, and compose the readable key. -/
def generate_cache_key (ticker data_type : String) (frequency period : Option String)
    (kwargs : List (String × String)) : String :=
  let params : List (String × String) :=
    [("ticker", pyUpper ticker), ("data_type", pyLower data_type),
     ("frequency", lowerOrNone frequency), ("period", lowerOrNone period)] ++ kwargs
  let sortedParams := params.mergeSort pairLe
  let param_string := joinSep "|" (sortedParams.map (fun p => p.1 ++ ":" ++ p.2))
  let param_hash := md5hex8 param_string
  pyUpper ticker ++ "_" ++ data_type ++ "_" ++ orNone frequency ++ "_" ++
    orNone period ++ "_" ++ param_hash

/-- CacheUtils.generate_simple_cache_key. -/
def generate_simple_cache_key (ticker data_type : String) : String :=
  pyUpper ticker ++ "_" ++ data_type

/-- CacheUtils.validate_cache_data: per-data-type shape check of a cached value;
`None` is rejected for every data type. -/
def validate_cache_data (data : PyValue) (data_type : String) : Bool :=
  if isPyNone data then false
  else if data_type = "company_info" then hasTickerAttr data
  else if data_type = "income_statements" ∨ data_type = "balance_sheets" ∨
      data_type = "cash_flows" then
    isPyList data && decide (0 < pyListLen data)
  else if data_type = "dividends" then isPyList data
  else if data_type = "price_data" then isPyList data && decide (0 < pyListLen data)
  else true

/-- The external configuration source consumed by CacheConfig: whether the config
manager is reachable at all, and the per-data-type answers it would give. -/
structure ConfigSource where
  available : Bool
  enabledFor : String → Bool
  ttlFor : String → Int

/-- CacheConfig.is_cache_enabled: config answer, falling back to `true` when the
config source throws. -/
def is_cache_enabled (cfg : ConfigSource) (data_type : String) : Bool :=
  if cfg.available then cfg.enabledFor data_type else true

/-- CacheConfig.get_ttl_hours: config answer, falling back to 24 hours when the
config source throws. -/
def get_ttl_hours (cfg : ConfigSource) (data_type : String) : Int :=
  if cfg.available then cfg.ttlFor data_type else 24

/-- CacheConfig.get_all_data_types: the source accesses `config.data.cache` on a
plain dict, which always raises, so the hard-coded fallback list is always
returned. -/
def get_all_data_types : List String :=
  ["company_info", "income_statements", "balance_sheets", "cash_flows",
   "dividends", "price_data"]

/-- CacheMetadata dataclass of manager.py; timestamps are integers in seconds. -/
structure CacheMetadata where
  cache_key : String
  ticker : String
  data_type : String
  frequency : Option String
  period : Option String
  created_at : Int
  expires_at : Int
  file_path : String
  file_size : Nat
deriving Repr, DecidableEq

/-- Content of an on-disk blob file: either the intact pickle of a value, or a
corrupt / partially written file (whose load raises). -/
inductive Blob where
  | good (v : PyValue) : Blob
  | corrupt : Blob
deriving Repr

/-- The state a CacheManager touches: the in-memory index dict, the on-disk blob
files (path to content), the last successfully persisted index, and the number
of attempted index persists (for counting `_save_cache_index` calls). -/
structure CacheState where
  index : List (String × CacheMetadata)
  files : List (String × Blob)
  savedIndex : List (String × CacheMetadata)
  saveCount : Nat

/-- Python dict update `d[k] = v`: replace the first binding of the key in place,
or append a fresh binding. -/
def updateA {α : Type} (l : List (String × α)) (k : String) (v : α) : List (String × α) :=
  match l with
  | [] => [(k, v)]
  | p :: rest => if p.1 = k then (k, v) :: rest else p :: updateA rest k v

/-- Python dict/file deletion: drop the first binding of the key. -/
def eraseKey {α : Type} (l : List (String × α)) (k : String) : List (String × α) :=
  match l with
  | [] => []
  | p :: rest => if p.1 = k then rest else p :: eraseKey rest k

/-- Models `os.path.exists` against the modelled filesystem. -/
def fileExists (st : CacheState) (path : String) : Bool :=
  (st.files.lookup path).isSome

/-- Failure oracle for the filesystem operations of the read/evict paths:
whether the blob open+load succeeds, whether `os.remove` of a blob succeeds,
and whether writing the index file succeeds. -/
structure FsOracle where
  readOk : Bool
  removeOk : Bool
  saveOk : Bool

/-- Outcome of `open(file_path, "wb"); pickle.dump(data, f)`: success, failure to
open (file untouched), or failure mid-dump (a partial file was written). -/
inductive BlobWrite where
  | ok : BlobWrite
  | openFail : BlobWrite
  | writeFail : BlobWrite
deriving Repr, DecidableEq

/-- Failure oracle for `store_cached_data`: the blob write outcome, whether
`os.path.getsize` succeeds, whether the cleanup `unlink` succeeds, and whether
the index persist succeeds. -/
structure PutOracle where
  blobWrite : BlobWrite
  getsizeOk : Bool
  unlinkOk : Bool
  saveOk : Bool

/-- CacheManager._save_cache_index: rewrite the whole index file; its own
exceptions are caught and logged, so a failed save leaves the previously
persisted index on disk. The attempt counter always advances. -/
def save_cache_index (saveOk : Bool) (st : CacheState) : CacheState :=
  { st with savedIndex := if saveOk then st.index else st.savedIndex,
            saveCount := st.saveCount + 1 }

/-- CacheManager._get_cache_file_path: `<base>/cache/<data_type>/<key>.pkl`
(the constant base directory prefix is omitted). -/
def cache_file_path (data_type cache_key : String) : String :=
  "cache/" ++ data_type ++ "/" ++ cache_key ++ ".pkl"

/-- CacheManager._is_cache_valid: not yet expired and backing file present. -/
def is_cache_valid (st : CacheState) (now : Int) (md : CacheMetadata) : Bool :=
  decide (now < md.expires_at) && fileExists st md.file_path

/-- Key computation shared by get/store: the full key when any discriminator is
truthy or extra parameters are given, else the simple key. -/
def computeKey (sticker data_type : String) (frequency period : Option String)
    (kwargs : List (String × String)) : String :=
  if truthy frequency || truthy period || !kwargs.isEmpty then
    generate_cache_key sticker data_type frequency period kwargs
  else
    generate_simple_cache_key sticker data_type

/-- CacheManager._remove_cache_entry: delete the backing file if present (a
failing delete is logged and ignored), drop the index binding, persist the
index. -/
def remove_cache_entry (o : FsOracle) (st : CacheState) (cache_key : String) : CacheState :=
  match st.index.lookup cache_key with
  | none => st
  | some md =>
    let files1 := if o.removeOk then eraseKey st.files md.file_path else st.files
    save_cache_index o.saveOk
      { st with index := eraseKey st.index cache_key, files := files1 }

/-- CacheManager.get_cached_data: disabled type misses without touching the
index; an absent key misses; an expired or orphaned entry is evicted and
misses; a failed load, corrupt blob or shape-invalid value is evicted and
misses; otherwise the stored value is returned unchanged. -/
def get_cached_data (cfg : ConfigSource) (o : FsOracle) (st : CacheState) (now : Int)
    (ticker data_type : String) (frequency period : Option String)
    (kwargs : List (String × String)) : CacheState × Option PyValue :=
  if !is_cache_enabled cfg data_type then (st, none)
  else
    let sticker := sanitize_ticker ticker
    let cache_key := computeKey sticker data_type frequency period kwargs
    match st.index.lookup cache_key with
    | none => (st, none)
    | some md =>
      if !is_cache_valid st now md then
        (remove_cache_entry o st cache_key, none)
      else
        match st.files.lookup md.file_path with
        | some (.good v) =>
          if o.readOk then
            if validate_cache_data v data_type then (st, some v)
            else (remove_cache_entry o st cache_key, none)
          else (remove_cache_entry o st cache_key, none)
        | _ => (remove_cache_entry o st cache_key, none)

/-- Exception cleanup of store_cached_data: if the target file exists, try to
unlink it (swallowing a failing unlink). -/
def cleanup_failed_write (unlinkOk : Bool) (st : CacheState) (path : String) : CacheState :=
  if fileExists st path && unlinkOk then { st with files := eraseKey st.files path }
  else st

/-- CacheManager.store_cached_data: reject disabled types and invalid tickers;
write the blob (cleaning up the target file on any failure inside the try
block, including a getsize failure after a complete write); then build the
metadata, update the index dict and persist it — a failing index persist is
swallowed and the call still reports success. -/
def store_cached_data (cfg : ConfigSource) (o : PutOracle) (st : CacheState) (now : Int)
    (data : PyValue) (ticker data_type : String) (frequency period : Option String)
    (kwargs : List (String × String)) : CacheState × Bool :=
  if !is_cache_enabled cfg data_type then (st, false)
  else if !is_valid_ticker ticker then (st, false)
  else
    let sticker := sanitize_ticker ticker
    let cache_key := computeKey sticker data_type frequency period kwargs
    let file_path := cache_file_path data_type cache_key
    match o.blobWrite with
    | .openFail => (cleanup_failed_write o.unlinkOk st file_path, false)
    | .writeFail =>
      let st1 := { st with files := updateA st.files file_path .corrupt }
      (cleanup_failed_write o.unlinkOk st1 file_path, false)
    | .ok =>
      let st1 := { st with files := updateA st.files file_path (.good data) }
      if !o.getsizeOk then (cleanup_failed_write o.unlinkOk st1 file_path, false)
      else
        let ttl := get_ttl_hours cfg data_type
        let md : CacheMetadata :=
          { cache_key := cache_key, ticker := pyUpper sticker, data_type := data_type,
            frequency := frequency, period := period,
            created_at := now, expires_at := now + ttl * 3600,
            file_path := file_path, file_size := pySize data }
        let st2 := { st1 with index := updateA st1.index cache_key md }
        (save_cache_index o.saveOk st2, true)

/-- Shared removal loop of the clean_* family: remove each collected key via
`remove_cache_entry` (which persists the index on every call). -/
def removeKeys (o : FsOracle) (st : CacheState) (keys : List String) : CacheState :=
  keys.foldl (fun s k => remove_cache_entry o s k) st

/-- CacheManager.clean_ticker_cache: collect the keys whose entry has the
normalized uppercase ticker, then remove them; returns the number removed. -/
def clean_ticker_cache (o : FsOracle) (st : CacheState) (ticker : String) :
    CacheState × Nat :=
  let tU := pyUpper (sanitize_ticker ticker)
  let keys := (st.index.filter (fun p => p.2.ticker = tU)).map (fun p => p.1)
  (removeKeys o st keys, keys.length)

/-- CacheManager.clean_data_type_cache. -/
def clean_data_type_cache (o : FsOracle) (st : CacheState) (data_type : String) :
    CacheState × Nat :=
  let keys := (st.index.filter (fun p => p.2.data_type = data_type)).map (fun p => p.1)
  (removeKeys o st keys, keys.length)

/-- Match condition of clean_expired_cache: already expired, or backing blob
missing. -/
def expiredOrOrphan (st : CacheState) (now : Int) (md : CacheMetadata) : Bool :=
  decide (md.expires_at ≤ now) || !fileExists st md.file_path

/-- CacheManager.clean_expired_cache: the keys are collected against the state
as it was when the loop started. -/
def clean_expired_cache (o : FsOracle) (st : CacheState) (now : Int) :
    CacheState × Nat :=
  let keys := (st.index.filter (fun p => expiredOrOrphan st now p.2)).map (fun p => p.1)
  (removeKeys o st keys, keys.length)

/-- CacheManager.clean_all_cache. -/
def clean_all_cache (o : FsOracle) (st : CacheState) : CacheState × Nat :=
  let keys := st.index.map (fun p => p.1)
  (removeKeys o st keys, keys.length)

/-- CacheUtils.format_cache_size, with the one-decimal float rendering of the
source modelled by truncating integer arithmetic in tenths. -/
def format_cache_size (size_bytes : Nat) : String :=
  let tenth := fun (n d : Nat) => toString (n * 10 / d / 10) ++ "." ++ toString (n * 10 / d % 10)
  if size_bytes < 1024 then toString size_bytes ++ " B"
  else if size_bytes < 1024 * 1024 then tenth size_bytes 1024 ++ " KB"
  else if size_bytes < 1024 * 1024 * 1024 then tenth size_bytes (1024 * 1024) ++ " MB"
  else tenth size_bytes (1024 * 1024 * 1024) ++ " GB"

/-- Per-data-type accumulator step of get_cache_stats: `stats_by_type` is a dict
from data type to a (count, size) pair; each entry bumps the count by one and
the size by the entry's recorded `file_size`, unconditionally. -/
def bumpType (acc : List (String × Nat × Nat)) (data_type : String) (sz : Nat) :
    List (String × Nat × Nat) :=
  match acc with
  | [] => [(data_type, 1, sz)]
  | p :: rest =>
    if p.1 = data_type then (p.1, p.2.1 + 1, p.2.2 + sz) :: rest
    else p :: bumpType rest data_type sz

/-- Result record of CacheManager.get_cache_stats. -/
structure CacheStats where
  total_entries : Nat
  valid_entries : Nat
  expired_entries : Nat
  total_size_bytes : Nat
  total_size_formatted : String
  stats_by_type : List (String × Nat × Nat)
  cache_enabled : Bool
deriving Repr

/-- CacheManager.get_cache_stats: one walk over the index; `total_size_bytes`
adds `file_size` only when the backing file exists, while the per-type
breakdown adds `file_size` for every entry. The index is not mutated. -/
def get_cache_stats (cfg : ConfigSource) (st : CacheState) (now : Int) : CacheStats :=
  let entries := st.index.map (fun p => p.2)
  let total_entries := st.index.length
  let expired_entries := (entries.filter (fun md => decide (md.expires_at ≤ now))).length
  let total_size :=
    (entries.map (fun md => if fileExists st md.file_path then md.file_size else 0)).sum
  { total_entries := total_entries
    valid_entries := total_entries - expired_entries
    expired_entries := expired_entries
    total_size_bytes := total_size
    total_size_formatted := format_cache_size total_size
    stats_by_type := entries.foldl (fun acc md => bumpType acc md.data_type md.file_size) []
    cache_enabled := get_all_data_types.any (fun dt => is_cache_enabled cfg dt) }

/-- Concrete configuration fixture: config source reachable, every data type
enabled, TTL 24 hours. -/
def cfgAll : ConfigSource :=
  ⟨true, fun _ => true, fun _ => 24⟩

/-- Concrete metadata fixture: a price_data entry for AAPL. -/
def mdA : CacheMetadata :=
  ⟨"A", "AAPL", "price_data", none, none, 0, 10, "fa", 5⟩

/-- Concrete metadata fixture: a company_info entry for MSFT. -/
def mdB : CacheMetadata :=
  ⟨"B", "MSFT", "company_info", none, none, 0, 20, "fb", 7⟩

/-- Concrete metadata fixture: a second AAPL entry, of a different data type. -/
def mdA2 : CacheMetadata :=
  ⟨"A2", "AAPL", "company_info", none, none, 0, 30, "fa2", 3⟩

/-- Concrete state fixture: one AAPL and one MSFT entry, both blobs present. -/
def stAB : CacheState :=
  ⟨[("A", mdA), ("B", mdB)], [("fa", .good (.int 1)), ("fb", .good (.int 2))], [], 0⟩

/-- Concrete state fixture: two AAPL entries and one MSFT entry, blobs present. -/
def stAAB : CacheState :=
  ⟨[("A", mdA), ("A2", mdA2), ("B", mdB)],
   [("fa", .good (.int 1)), ("fa2", .good (.int 2)), ("fb", .good (.int 3))], [], 0⟩

/-- Filter condition of CacheManager.list_cache_entries (Python truthiness on
the optional filters). -/
def listFilter (ticker data_type : Option String) (md : CacheMetadata) : Bool :=
  (if truthy ticker then md.ticker = pyUpper (sanitize_ticker ((ticker).getD ""))
   else true) &&
  (if truthy data_type then md.data_type = (data_type).getD "" else true)

/-- CacheManager.list_cache_entries: filtered entries, stably sorted by
`created_at` descending. -/
def list_cache_entries (st : CacheState) (ticker data_type : Option String) :
    List CacheMetadata :=
  let entries := (st.index.map (fun p => p.2)).filter (listFilter ticker data_type)
  entries.mergeSort (fun a b => decide (b.created_at ≤ a.created_at))

/-! ### Association-list lemmas -/

theorem lookup_cons_self {α : Type} {p : String × α} (rest : List (String × α))
    {k : String} (h : k = p.1) : (p :: rest).lookup k = some p.2 := by
  obtain ⟨a, b⟩ := p
  subst h
  simp [List.lookup]

theorem lookup_cons_ne {α : Type} {p : String × α} (rest : List (String × α))
    {k : String} (h : k ≠ p.1) : (p :: rest).lookup k = rest.lookup k := by
  obtain ⟨a, b⟩ := p
  have hb : (k == a) = false := beq_eq_false_iff_ne.mpr h
  simp [List.lookup, hb]

theorem lookup_updateA_self {α : Type} (l : List (String × α)) (k : String) (v : α) :
    (updateA l k v).lookup k = some v := by
  induction l with
  | nil => simp [updateA, List.lookup]
  | cons p rest ih =>
    by_cases h : p.1 = k
    · rw [updateA, if_pos h]
      exact lookup_cons_self rest rfl
    · rw [updateA, if_neg h, lookup_cons_ne _ (Ne.symm h)]
      exact ih

theorem lookup_updateA_ne {α : Type} (l : List (String × α)) {k q : String}
    (h : q ≠ k) (v : α) : (updateA l k v).lookup q = l.lookup q := by
  induction l with
  | nil => simp [updateA, List.lookup, beq_eq_false_iff_ne.mpr h]
  | cons p rest ih =>
    by_cases hp : p.1 = k
    · rw [updateA, if_pos hp, lookup_cons_ne _ (hp ▸ h), lookup_cons_ne _ (hp ▸ h)]
    · rw [updateA, if_neg hp]
      by_cases hq : q = p.1
      · rw [lookup_cons_self _ hq, lookup_cons_self _ hq]
      · rw [lookup_cons_ne _ hq, lookup_cons_ne _ hq]
        exact ih

theorem eraseKey_sublist {α : Type} (l : List (String × α)) (k : String) :
    (eraseKey l k).Sublist l := by
  induction l with
  | nil => simp [eraseKey]
  | cons p rest ih =>
    by_cases h : p.1 = k
    · simp only [eraseKey, if_pos h]
      exact List.sublist_cons_self p rest
    · simpa [eraseKey, h] using ih.cons₂ p

theorem lookup_eraseKey_ne {α : Type} (l : List (String × α)) {k q : String}
    (h : q ≠ k) : (eraseKey l k).lookup q = l.lookup q := by
  induction l with
  | nil => simp [eraseKey]
  | cons p rest ih =>
    by_cases hp : p.1 = k
    · rw [eraseKey, if_pos hp, lookup_cons_ne _ (hp ▸ h)]
    · rw [eraseKey, if_neg hp]
      by_cases hq : q = p.1
      · rw [lookup_cons_self _ hq, lookup_cons_self _ hq]
      · rw [lookup_cons_ne _ hq, lookup_cons_ne _ hq]
        exact ih

theorem lookup_eq_none_of_not_mem {α : Type} {l : List (String × α)} {k : String}
    (h : k ∉ l.map Prod.fst) : l.lookup k = none := by
  induction l with
  | nil => simp [List.lookup]
  | cons p rest ih =>
    simp only [List.map_cons, List.mem_cons] at h
    push_neg at h
    rw [lookup_cons_ne _ h.1]
    exact ih h.2

theorem lookup_isSome_iff_mem {α : Type} (l : List (String × α)) (k : String) :
    (l.lookup k).isSome = true ↔ k ∈ l.map Prod.fst := by
  induction l with
  | nil => simp [List.lookup]
  | cons p rest ih =>
    by_cases h : k = p.1
    · rw [lookup_cons_self _ h]
      simp [h]
    · rw [lookup_cons_ne _ h]
      simp only [List.map_cons, List.mem_cons]
      rw [ih]
      exact ⟨Or.inr, fun hc => hc.elim (fun he => absurd he h) id⟩

theorem lookup_eraseKey_self {α : Type} {l : List (String × α)} {k : String}
    (hnd : (l.map Prod.fst).Nodup) : (eraseKey l k).lookup k = none := by
  induction l with
  | nil => simp [eraseKey, List.lookup]
  | cons p rest ih =>
    simp only [List.map_cons, List.nodup_cons] at hnd
    by_cases h : p.1 = k
    · rw [eraseKey, if_pos h]
      exact lookup_eq_none_of_not_mem (h ▸ hnd.1)
    · rw [eraseKey, if_neg h, lookup_cons_ne _ (Ne.symm h)]
      exact ih hnd.2

theorem eraseKey_eq_filter {α : Type} {l : List (String × α)} {k : String}
    (hnd : (l.map Prod.fst).Nodup) :
    eraseKey l k = l.filter (fun p => !(decide (p.1 = k))) := by
  induction l with
  | nil => simp [eraseKey]
  | cons p rest ih =>
    simp only [List.map_cons, List.nodup_cons] at hnd
    by_cases h : p.1 = k
    · subst h
      have : rest.filter (fun p2 => !(decide (p2.1 = p.1))) = rest := by
        apply List.filter_eq_self.mpr
        intro q hq
        have : q.1 ≠ p.1 := by
          intro he
          exact hnd.1 (he ▸ List.mem_map_of_mem Prod.fst hq)
        simp [this]
      simp [eraseKey, this]
    · simp [eraseKey, h, List.filter_cons, ih hnd.2]

theorem lookup_eraseKey_none {α : Type} {l : List (String × α)} {k q : String}
    (h : l.lookup k = none) : (eraseKey l q).lookup k = none := by
  apply lookup_eq_none_of_not_mem
  intro hmem
  have hsub := (eraseKey_sublist l q).map Prod.fst
  have : k ∈ l.map Prod.fst := hsub.mem hmem
  rw [← lookup_isSome_iff_mem] at this
  simp [h] at this

theorem lookup_of_mem_nodup {α : Type} {l : List (String × α)} {p : String × α}
    (hnd : (l.map Prod.fst).Nodup) (hp : p ∈ l) : l.lookup p.1 = some p.2 := by
  induction l with
  | nil => simp at hp
  | cons q rest ih =>
    simp only [List.map_cons, List.nodup_cons] at hnd
    rcases List.mem_cons.mp hp with h | h
    · subst h
      exact lookup_cons_self rest rfl
    · have hne : p.1 ≠ q.1 := by
        intro he
        exact hnd.1 (he ▸ List.mem_map_of_mem Prod.fst h)
      rw [lookup_cons_ne _ hne]
      exact ih hnd.2 h

theorem mem_of_mem_updateA {α : Type} {l : List (String × α)} {k : String} {v : α}
    {q : String × α} (hq : q ∈ updateA l k v) : q ∈ l ∨ q.1 = k := by
  induction l with
  | nil =>
    simp only [updateA, List.mem_singleton] at hq
    exact Or.inr (by simp [hq])
  | cons p rest ih =>
    by_cases h : p.1 = k
    · simp only [updateA, if_pos h, List.mem_cons] at hq
      rcases hq with hq | hq
      · exact Or.inr (by simp [hq])
      · exact Or.inl (List.mem_cons_of_mem p hq)
    · simp only [updateA, if_neg h, List.mem_cons] at hq
      rcases hq with hq | hq
      · exact Or.inl (hq ▸ List.mem_cons_self p rest)
      · rcases ih hq with h2 | h2
        · exact Or.inl (List.mem_cons_of_mem p h2)
        · exact Or.inr h2

theorem charListLt_irrefl (l : List Char) : charListLt l l = false := by
  induction l with
  | nil => rfl
  | cons a as ih =>
    simp only [charListLt, ih, Bool.and_false, Bool.or_false]
    exact decide_eq_false (lt_irrefl a)

theorem charListLt_asymm {x y : List Char} (h : charListLt x y = true) :
    charListLt y x = false := by
  induction x generalizing y with
  | nil =>
    cases y with
    | nil => simp [charListLt] at h
    | cons b bs => rfl
  | cons a as ih =>
    cases y with
    | nil => simp [charListLt] at h
    | cons b bs =>
      simp only [charListLt, Bool.or_eq_true, Bool.and_eq_true,
        decide_eq_true_eq] at h
      simp only [charListLt]
      rcases h with h | ⟨he, hrec⟩
      · have h1 : decide (b < a) = false := decide_eq_false (lt_asymm h)
        have h2 : decide (b = a) = false :=
          decide_eq_false (fun e => absurd (e ▸ h) (lt_irrefl b))
        simp [h1, h2]
      · subst he
        have h1 : decide (a < a) = false := decide_eq_false (lt_irrefl a)
        simp [h1, ih hrec]

theorem charListLt_trans {x y z : List Char} (h1 : charListLt x y = true)
    (h2 : charListLt y z = true) : charListLt x z = true := by
  induction x generalizing y z with
  | nil =>
    cases z with
    | nil =>
      cases y with
      | nil => simp [charListLt] at h1
      | cons b bs => simp [charListLt] at h2
    | cons c cs => rfl
  | cons a as ih =>
    cases y with
    | nil => simp [charListLt] at h1
    | cons b bs =>
      cases z with
      | nil => simp [charListLt] at h2
      | cons c cs =>
        simp only [charListLt, Bool.or_eq_true, Bool.and_eq_true,
          decide_eq_true_eq] at h1 h2 ⊢
        rcases h1 with h1 | ⟨he1, hr1⟩
        · rcases h2 with h2 | ⟨he2, _⟩
          · exact Or.inl (lt_trans h1 h2)
          · exact Or.inl (he2 ▸ h1)
        · rcases h2 with h2 | ⟨he2, hr2⟩
          · exact Or.inl (by rw [he1]; exact h2)
          · exact Or.inr ⟨he1.trans he2, ih hr1 hr2⟩

theorem charListLt_total (x y : List Char) :
    charListLt x y = true ∨ x = y ∨ charListLt y x = true := by
  induction x generalizing y with
  | nil =>
    cases y with
    | nil => exact Or.inr (Or.inl rfl)
    | cons b bs => exact Or.inl rfl
  | cons a as ih =>
    cases y with
    | nil => exact Or.inr (Or.inr rfl)
    | cons b bs =>
      rcases lt_trichotomy a b with h | h | h
      · left
        simp [charListLt, h]
      · subst h
        rcases ih bs with h2 | h2 | h2
        · left
          simp [charListLt, h2]
        · exact Or.inr (Or.inl (by rw [h2]))
        · right; right
          simp [charListLt, h2]
      · right; right
        simp [charListLt, h]

theorem strLt_trans {a b c : String} (h1 : strLt a b = true)
    (h2 : strLt b c = true) : strLt a c = true :=
  charListLt_trans h1 h2

theorem strLt_asymm {a b : String} (h : strLt a b = true) : strLt b a = false :=
  charListLt_asymm h

theorem strLt_irrefl (a : String) : strLt a a = false :=
  charListLt_irrefl a.data

theorem strLt_total (a b : String) : strLt a b = true ∨ a = b ∨ strLt b a = true := by
  rcases charListLt_total a.data b.data with h | h | h
  · exact Or.inl h
  · exact Or.inr (Or.inl (String.ext h))
  · exact Or.inr (Or.inr h)

theorem pairLe_trans (a b c : String × String) (h1 : pairLe a b = true)
    (h2 : pairLe b c = true) : pairLe a c = true := by
  simp only [pairLe, Bool.or_eq_true, Bool.and_eq_true, beq_iff_eq] at h1 h2 ⊢
  rcases h1 with h1 | ⟨he1, hv1⟩
  · rcases h2 with h2 | ⟨he2, _⟩
    · exact Or.inl (strLt_trans h1 h2)
    · exact Or.inl (he2 ▸ h1)
  · rcases h2 with h2 | ⟨he2, hv2⟩
    · exact Or.inl (by rw [he1]; exact h2)
    · refine Or.inr ⟨he1.trans he2, ?_⟩
      rcases hv1 with hv1 | hv1
      · rcases hv2 with hv2 | hv2
        · exact Or.inl (strLt_trans hv1 hv2)
        · exact Or.inl (hv2 ▸ hv1)
      · rcases hv2 with hv2 | hv2
        · exact Or.inl (by rw [hv1]; exact hv2)
        · exact Or.inr (hv1.trans hv2)

theorem pairLe_total (a b : String × String) : (pairLe a b || pairLe b a) = true := by
  simp only [pairLe, Bool.or_eq_true, Bool.and_eq_true, beq_iff_eq]
  rcases strLt_total a.1 b.1 with h | h | h
  · exact Or.inl (Or.inl h)
  · rcases strLt_total a.2 b.2 with hv | hv | hv
    · exact Or.inl (Or.inr ⟨h, Or.inl hv⟩)
    · exact Or.inl (Or.inr ⟨h, Or.inr hv⟩)
    · exact Or.inr (Or.inr ⟨h.symm, Or.inl hv⟩)
  · exact Or.inr (Or.inl h)

theorem pairLe_antisymm (a b : String × String) (h1 : pairLe a b = true)
    (h2 : pairLe b a = true) : a = b := by
  simp only [pairLe, Bool.or_eq_true, Bool.and_eq_true, beq_iff_eq] at h1 h2
  rcases h1 with h1 | ⟨he1, hv1⟩
  · rcases h2 with h2 | ⟨he2, _⟩
    · have hc := strLt_asymm h1
      rw [h2] at hc
      exact Bool.noConfusion hc
    · rw [he2] at h1
      have hc := strLt_irrefl a.1
      rw [h1] at hc
      exact Bool.noConfusion hc
  · rcases h2 with h2 | ⟨_, hv2⟩
    · rw [he1] at h2
      have hc := strLt_irrefl b.1
      rw [h2] at hc
      exact Bool.noConfusion hc
    · have hv : a.2 = b.2 := by
        rcases hv1 with hv1 | hv1
        · rcases hv2 with hv2 | hv2
          · have hc := strLt_asymm hv1
            rw [hv2] at hc
            exact Bool.noConfusion hc
          · exact hv2.symm
        · exact hv1
      exact Prod.ext he1 hv

theorem keys_updateA_nodup {α : Type} {l : List (String × α)} (k : String) (v : α)
    (hnd : (l.map Prod.fst).Nodup) : ((updateA l k v).map Prod.fst).Nodup := by
  induction l with
  | nil => simp [updateA]
  | cons p rest ih =>
    simp only [List.map_cons, List.nodup_cons] at hnd
    by_cases h : p.1 = k
    · rw [updateA, if_pos h]
      simp only [List.map_cons, List.nodup_cons]
      exact ⟨h ▸ hnd.1, hnd.2⟩
    · simp only [updateA, if_neg h, List.map_cons, List.nodup_cons]
      refine ⟨fun hmem => ?_, ih hnd.2⟩
      rcases List.mem_map.mp hmem with ⟨q, hq, hfst⟩
      have := mem_of_mem_updateA hq
      rcases this with hql | hqk
      · exact hnd.1 (hfst ▸ List.mem_map_of_mem Prod.fst hql)
      · exact h (by rw [← hfst, hqk])

theorem sumCounts_bumpType (acc : List (String × Nat × Nat)) (dt : String) (sz : Nat) :
    ((bumpType acc dt sz).map (fun p => p.2.1)).sum
      = (acc.map (fun p => p.2.1)).sum + 1 := by
  induction acc with
  | nil => simp [bumpType]
  | cons p rest ih =>
    by_cases h : p.1 = dt
    · simp only [bumpType, if_pos h, List.map_cons, List.sum_cons]
      omega
    · simp only [bumpType, if_neg h, List.map_cons, List.sum_cons, ih]
      omega

theorem sumSizes_bumpType (acc : List (String × Nat × Nat)) (dt : String) (sz : Nat) :
    ((bumpType acc dt sz).map (fun p => p.2.2)).sum
      = (acc.map (fun p => p.2.2)).sum + sz := by
  induction acc with
  | nil => simp [bumpType]
  | cons p rest ih =>
    by_cases h : p.1 = dt
    · simp only [bumpType, if_pos h, List.map_cons, List.sum_cons]
      omega
    · simp only [bumpType, if_neg h, List.map_cons, List.sum_cons, ih]
      omega

theorem sumCounts_foldl_bumpType (entries : List CacheMetadata)
    (acc : List (String × Nat × Nat)) :
    ((entries.foldl (fun a md => bumpType a md.data_type md.file_size) acc).map
      (fun p => p.2.1)).sum = (acc.map (fun p => p.2.1)).sum + entries.length := by
  induction entries generalizing acc with
  | nil => simp
  | cons md rest ih =>
    simp only [List.foldl_cons, List.length_cons, ih, sumCounts_bumpType]
    omega

theorem sumSizes_foldl_bumpType (entries : List CacheMetadata)
    (acc : List (String × Nat × Nat)) :
    ((entries.foldl (fun a md => bumpType a md.data_type md.file_size) acc).map
      (fun p => p.2.2)).sum
      = (acc.map (fun p => p.2.2)).sum + (entries.map (fun md => md.file_size)).sum := by
  induction entries generalizing acc with
  | nil => simp
  | cons md rest ih =>
    simp only [List.foldl_cons, List.map_cons, List.sum_cons, ih, sumSizes_bumpType]
    omega

theorem string_beq_eq_decide (a b : String) : (a == b) = decide (a = b) := by
  by_cases h : a = b
  · simp [h]
  · simp [h, beq_eq_false_iff_ne.mpr h]

theorem keys_eraseKey_nodup {α : Type} {l : List (String × α)} (k : String)
    (hnd : (l.map Prod.fst).Nodup) : ((eraseKey l k).map Prod.fst).Nodup :=
  hnd.sublist ((eraseKey_sublist l k).map Prod.fst)

theorem lookup_some_of_mem_keys {α : Type} {l : List (String × α)} {k : String}
    (h : k ∈ l.map Prod.fst) : ∃ v, l.lookup k = some v := by
  have hs := (lookup_isSome_iff_mem l k).mpr h
  cases hx : l.lookup k with
  | none =>
    rw [hx] at hs
    simp at hs
  | some v => exact ⟨v, rfl⟩

theorem mem_of_lookup_eq_some {α : Type} {l : List (String × α)} {k : String} {v : α}
    (h : l.lookup k = some v) : (k, v) ∈ l := by
  induction l with
  | nil => simp [List.lookup] at h
  | cons p rest ih =>
    by_cases hk : k = p.1
    · rw [lookup_cons_self _ hk] at h
      have hv : v = p.2 := (Option.some.injEq _ _).mp h.symm
      subst hk
      subst hv
      exact List.mem_cons_self _ _
    · rw [lookup_cons_ne _ hk] at h
      exact List.mem_cons_of_mem p (ih h)

theorem lookup_eq_none_of_not_fileExists {st : CacheState} {path : String}
    (h : fileExists st path = false) : st.files.lookup path = none := by
  unfold fileExists at h
  cases hx : st.files.lookup path with
  | none => rfl
  | some b =>
    rw [hx] at h
    simp at h

/-! ### Claim theorems -/

/-- C9: for every cache state and every data type whose policy reports caching
disabled, store_cached_data returns false and get_cached_data returns None,
each leaving the state (index, files, persisted index) entirely unchanged,
regardless of any entries previously stored. -/
theorem disabled_type_noop (cfg : ConfigSource) (oG : FsOracle) (oP : PutOracle)
    (st : CacheState) (now : Int) (data : PyValue) (ticker data_type : String)
    (frequency period : Option String) (kwargs : List (String × String))
    (hdis : is_cache_enabled cfg data_type = false) :
    store_cached_data cfg oP st now data ticker data_type frequency period kwargs
      = (st, false) ∧
    get_cached_data cfg oG st now ticker data_type frequency period kwargs
      = (st, none) := by
  constructor
  · simp [store_cached_data, hdis]
  · simp [get_cached_data, hdis]

/-- Witness for C9 at a concrete disabled configuration and non-empty prior
state. -/
theorem disabled_type_noop_witness :
    is_cache_enabled ⟨true, fun _ => false, fun _ => 24⟩ "price_data" = false ∧
    store_cached_data ⟨true, fun _ => false, fun _ => 24⟩ ⟨.ok, true, true, true⟩
      ⟨[("K", { cache_key := "K", ticker := "AAPL", data_type := "price_data",
                frequency := none, period := none, created_at := 0, expires_at := 10,
                file_path := "f", file_size := 3 })], [("f", .good (.int 1))], [], 0⟩
      0 (.int 1) "AAPL" "price_data" none none []
      = (⟨[("K", { cache_key := "K", ticker := "AAPL", data_type := "price_data",
                   frequency := none, period := none, created_at := 0, expires_at := 10,
                   file_path := "f", file_size := 3 })], [("f", .good (.int 1))], [], 0⟩,
         false) ∧
    get_cached_data ⟨true, fun _ => false, fun _ => 24⟩ ⟨true, true, true⟩
      ⟨[("K", { cache_key := "K", ticker := "AAPL", data_type := "price_data",
                frequency := none, period := none, created_at := 0, expires_at := 10,
                file_path := "f", file_size := 3 })], [("f", .good (.int 1))], [], 0⟩
      0 "AAPL" "price_data" none none []
      = (⟨[("K", { cache_key := "K", ticker := "AAPL", data_type := "price_data",
                   frequency := none, period := none, created_at := 0, expires_at := 10,
                   file_path := "f", file_size := 3 })], [("f", .good (.int 1))], [], 0⟩,
         none) :=
  ⟨rfl,
   (disabled_type_noop ⟨true, fun _ => false, fun _ => 24⟩ ⟨true, true, true⟩
     ⟨.ok, true, true, true⟩ _ 0 (.int 1) "AAPL" "price_data" none none [] rfl).1,
   (disabled_type_noop ⟨true, fun _ => false, fun _ => 24⟩ ⟨true, true, true⟩
     ⟨.ok, true, true, true⟩ _ 0 (.int 1) "AAPL" "price_data" none none [] rfl).2⟩

/-- C3 (counterexample): with ttl_hours configured to 0, a successful
store_cached_data creates an entry whose expires_at EQUALS created_at, refuting
the claim that expires_at is strictly greater than created_at for every
configured ttl_hours value including 0. -/
theorem expiry_strict_counterexample :
    ((store_cached_data ⟨true, fun _ => true, fun _ => 0⟩ ⟨.ok, true, true, true⟩
        ⟨[], [], [], 0⟩ 0 (.int 1) "AAPL" "price_data" none none
        []).1.index.lookup "AAPL_price_data").map
      (fun md => (decide (md.created_at < md.expires_at), md.created_at, md.expires_at))
      = some (false, 0, 0) := by
  rfl

/-- C3 (amended): every entry created by a successful store_cached_data has
expires_at = created_at + ttl_hours(data_type) (one hour being 3600 time
units), and expires_at is strictly greater than created_at exactly when the
configured ttl_hours is positive — with ttl_hours = 0 the two are equal, so
the entry is expired immediately (validity requires now < expires_at). -/
theorem store_expiry_equation (cfg : ConfigSource) (oP : PutOracle) (st : CacheState)
    (now : Int) (data : PyValue) (ticker data_type : String)
    (frequency period : Option String) (kwargs : List (String × String))
    (hen : is_cache_enabled cfg data_type = true)
    (hval : is_valid_ticker ticker = true)
    (hw : oP.blobWrite = .ok) (hg : oP.getsizeOk = true) :
    ∃ md,
      (store_cached_data cfg oP st now data ticker data_type frequency period
          kwargs).1.index.lookup
        (computeKey (sanitize_ticker ticker) data_type frequency period kwargs) = some md ∧
      md.created_at = now ∧
      md.expires_at = md.created_at + get_ttl_hours cfg data_type * 3600 ∧
      (md.created_at < md.expires_at ↔ 0 < get_ttl_hours cfg data_type) := by
  simp only [store_cached_data, hen, hval, hw, hg, Bool.not_true, Bool.false_eq_true,
    if_false, save_cache_index]
  refine ⟨_, lookup_updateA_self _ _ _, rfl, rfl, ?_⟩
  show now < now + get_ttl_hours cfg data_type * 3600 ↔ 0 < get_ttl_hours cfg data_type
  omega

/-- Witness for C3 at a concrete store with the 24-hour fallback TTL. -/
theorem store_expiry_equation_witness :
    is_cache_enabled ⟨false, fun _ => true, fun _ => 24⟩ "price_data" = true ∧
    is_valid_ticker "msft" = true ∧
    (∃ md,
      (store_cached_data ⟨false, fun _ => true, fun _ => 24⟩ ⟨.ok, true, true, true⟩
          ⟨[], [], [], 0⟩ 100 (.list [.int 7]) "msft" "price_data" none none
          []).1.index.lookup
        (computeKey (sanitize_ticker "msft") "price_data" none none []) = some md ∧
      md.created_at = 100 ∧
      md.expires_at = md.created_at + get_ttl_hours ⟨false, fun _ => true, fun _ => 24⟩
        "price_data" * 3600 ∧
      (md.created_at < md.expires_at ↔
        0 < get_ttl_hours ⟨false, fun _ => true, fun _ => 24⟩ "price_data")) :=
  ⟨rfl, by decide,
   store_expiry_equation ⟨false, fun _ => true, fun _ => 24⟩ ⟨.ok, true, true, true⟩
     ⟨[], [], [], 0⟩ 100 (.list [.int 7]) "msft" "price_data" none none []
     rfl (by decide) rfl rfl⟩

/-- C2 (counterexample): a failure of the underlying index-persist file
operation (saveOk = false) during store_cached_data does NOT yield false: the
call still returns true (and the index file on disk was not updated), refuting
the claim that every failure of an underlying file operation yields false from
store_cached_data. -/
theorem fail_open_counterexample :
    (⟨.ok, true, true, false⟩ : PutOracle).saveOk = false ∧
    (store_cached_data ⟨true, fun _ => true, fun _ => 24⟩ ⟨.ok, true, true, false⟩
      ⟨[], [], [], 0⟩ 0 (.int 1) "AAPL" "price_data" none none []).2 = true ∧
    (store_cached_data ⟨true, fun _ => true, fun _ => 24⟩ ⟨.ok, true, true, false⟩
      ⟨[], [], [], 0⟩ 0 (.int 1) "AAPL" "price_data" none none []).1.savedIndex = [] :=
  ⟨rfl, rfl, rfl⟩

/-- C2 (amended): the embedded operations are total — no failure configuration
raises — and: a read failure makes get_cached_data return None; a blob-write or
getsize failure makes store_cached_data return false; an unavailable config
source falls back to enabled=true and ttl=24 instead of failing; but a failure
persisting the index after a successful blob write is swallowed and
store_cached_data still returns true. -/
theorem fail_open_contract (cfg : ConfigSource) (oG : FsOracle) (oP : PutOracle)
    (st : CacheState) (now : Int) (data : PyValue) (ticker data_type : String)
    (frequency period : Option String) (kwargs : List (String × String)) :
    (oG.readOk = false →
      (get_cached_data cfg oG st now ticker data_type frequency period kwargs).2
        = none) ∧
    (oP.blobWrite ≠ .ok ∨ oP.getsizeOk = false →
      (store_cached_data cfg oP st now data ticker data_type frequency period kwargs).2
        = false) ∧
    (cfg.available = false →
      is_cache_enabled cfg data_type = true ∧ get_ttl_hours cfg data_type = 24) ∧
    (is_cache_enabled cfg data_type = true → is_valid_ticker ticker = true →
      oP.blobWrite = .ok → oP.getsizeOk = true →
      (store_cached_data cfg oP st now data ticker data_type frequency period kwargs).2
        = true) := by
  refine ⟨?_, ?_, ?_, ?_⟩
  · intro hr
    unfold get_cached_data
    by_cases hen : is_cache_enabled cfg data_type = true
    · simp only [hen, Bool.not_true, Bool.false_eq_true, if_false]
      cases hl : st.index.lookup
          (computeKey (sanitize_ticker ticker) data_type frequency period kwargs) with
      | none => rfl
      | some md =>
        by_cases hv : is_cache_valid st now md = true
        · simp only [hv, Bool.not_true, Bool.false_eq_true, if_false]
          cases hf : st.files.lookup md.file_path with
          | none => rfl
          | some b =>
            cases b with
            | good v => simp [hr]
            | corrupt => rfl
        · simp only [Bool.not_eq_true] at hv
          simp [hv]
    · simp only [Bool.not_eq_true] at hen
      simp [hen]
  · intro h
    unfold store_cached_data
    by_cases hen : is_cache_enabled cfg data_type = true
    · by_cases hvt : is_valid_ticker ticker = true
      · simp only [hen, hvt, Bool.not_true, Bool.false_eq_true, if_false]
        cases hbw : oP.blobWrite with
        | openFail => rfl
        | writeFail => rfl
        | ok =>
          rcases h with h | h
          · exact absurd hbw h
          · simp [h]
      · simp only [Bool.not_eq_true] at hvt
        simp [hvt]
    · simp only [Bool.not_eq_true] at hen
      simp [hen]
  · intro h
    exact ⟨by simp [is_cache_enabled, h], by simp [get_ttl_hours, h]⟩
  · intro hen hvt hbw hgs
    simp [store_cached_data, hen, hvt, hbw, hgs]

/-- Witness for C2 at a concrete state and failing oracles. -/
theorem fail_open_contract_witness :
    ((⟨false, true, true⟩ : FsOracle).readOk = false ∧
      (get_cached_data ⟨false, fun _ => true, fun _ => 24⟩ ⟨false, true, true⟩
        ⟨[], [], [], 0⟩ 0 "AAPL" "price_data" none none []).2 = none) ∧
    ((⟨.writeFail, true, true, true⟩ : PutOracle).blobWrite ≠ .ok ∧
      (store_cached_data ⟨false, fun _ => true, fun _ => 24⟩ ⟨.writeFail, true, true, true⟩
        ⟨[], [], [], 0⟩ 0 (.int 1) "AAPL" "price_data" none none []).2 = false) ∧
    is_cache_enabled ⟨false, fun _ => true, fun _ => 24⟩ "price_data" = true ∧
    get_ttl_hours ⟨false, fun _ => true, fun _ => 24⟩ "price_data" = 24 := by
  refine ⟨⟨rfl, ?_⟩, ⟨by decide, ?_⟩, ?_, ?_⟩
  · exact (fail_open_contract ⟨false, fun _ => true, fun _ => 24⟩ ⟨false, true, true⟩
      ⟨.writeFail, true, true, true⟩ ⟨[], [], [], 0⟩ 0 (.int 1) "AAPL" "price_data"
      none none []).1 rfl
  · exact (fail_open_contract ⟨false, fun _ => true, fun _ => 24⟩ ⟨false, true, true⟩
      ⟨.writeFail, true, true, true⟩ ⟨[], [], [], 0⟩ 0 (.int 1) "AAPL" "price_data"
      none none []).2.1 (Or.inl (by decide))
  · exact ((fail_open_contract ⟨false, fun _ => true, fun _ => 24⟩ ⟨false, true, true⟩
      ⟨.writeFail, true, true, true⟩ ⟨[], [], [], 0⟩ 0 (.int 1) "AAPL" "price_data"
      none none []).2.2.1 rfl).1
  · exact ((fail_open_contract ⟨false, fun _ => true, fun _ => 24⟩ ⟨false, true, true⟩
      ⟨.writeFail, true, true, true⟩ ⟨[], [], [], 0⟩ 0 (.int 1) "AAPL" "price_data"
      none none []).2.2.1 rfl).2

/-- C6: generate_cache_key is order-independent — two calls with the same
ticker, data type and discriminators whose extra keyword parameters are
permutations of each other yield the identical key string (the parameter pairs
are sorted before serialization; the fixed freq/period discriminators are named
parameters, so supplying them in either order is the same call). -/
theorem key_order_independence (ticker data_type : String)
    (frequency period : Option String) (kw1 kw2 : List (String × String))
    (hperm : kw1.Perm kw2) :
    generate_cache_key ticker data_type frequency period kw1 =
      generate_cache_key ticker data_type frequency period kw2 := by
  haveI : IsAntisymm (String × String) (fun a b => pairLe a b = true) :=
    ⟨pairLe_antisymm⟩
  have hbase :
      (([("ticker", pyUpper ticker), ("data_type", pyLower data_type),
         ("frequency", lowerOrNone frequency), ("period", lowerOrNone period)] ++ kw1)).Perm
      (([("ticker", pyUpper ticker), ("data_type", pyLower data_type),
         ("frequency", lowerOrNone frequency), ("period", lowerOrNone period)] ++ kw2)) :=
    List.Perm.append_left _ hperm
  have heq :
      (([("ticker", pyUpper ticker), ("data_type", pyLower data_type),
         ("frequency", lowerOrNone frequency), ("period", lowerOrNone period)] ++
        kw1)).mergeSort pairLe =
      (([("ticker", pyUpper ticker), ("data_type", pyLower data_type),
         ("frequency", lowerOrNone frequency), ("period", lowerOrNone period)] ++
        kw2)).mergeSort pairLe :=
    List.eq_of_perm_of_sorted
      ((List.mergeSort_perm _ pairLe).trans
        (hbase.trans (List.mergeSort_perm _ pairLe).symm))
      (List.sorted_mergeSort pairLe_trans pairLe_total _)
      (List.sorted_mergeSort pairLe_trans pairLe_total _)
  simp only [generate_cache_key]
  rw [heq]

/-- Witness for C6 with two extra keyword parameters supplied in both orders. -/
theorem key_order_independence_witness :
    ([("period2", "5d"), ("adjusted", "yes")] :
        List (String × String)).Perm [("adjusted", "yes"), ("period2", "5d")] ∧
    generate_cache_key "aapl" "price_data" (some "annual") (some "1y")
        [("period2", "5d"), ("adjusted", "yes")] =
      generate_cache_key "aapl" "price_data" (some "annual") (some "1y")
        [("adjusted", "yes"), ("period2", "5d")] :=
  ⟨by decide,
   key_order_independence "aapl" "price_data" (some "annual") (some "1y")
     [("period2", "5d"), ("adjusted", "yes")] [("adjusted", "yes"), ("period2", "5d")]
     (by decide)⟩

/-- C1 (counterexample): store_cached_data(None, "AAPL", "price_data") returns
true, yet the get made immediately afterwards — same ticker, same data type,
same (absent) discriminators, well before expires_at — returns None rather
than the stored value, because the shape validation rejects None: the claimed
round trip fails for the value None. -/
theorem roundtrip_claim_counterexample :
    (store_cached_data ⟨true, fun _ => true, fun _ => 24⟩ ⟨.ok, true, true, true⟩
      ⟨[], [], [], 0⟩ 0 .pyNone "AAPL" "price_data" none none []).2 = true ∧
    (get_cached_data ⟨true, fun _ => true, fun _ => 24⟩ ⟨true, true, true⟩
      (store_cached_data ⟨true, fun _ => true, fun _ => 24⟩ ⟨.ok, true, true, true⟩
        ⟨[], [], [], 0⟩ 0 .pyNone "AAPL" "price_data" none none []).1
      5 "AAPL" "price_data" none none []).2 = none :=
  ⟨rfl, rfl⟩

/-- C1 (amended): the round trip holds for every value that passes the
per-data-type shape validation: after a successful store of such a value, a
get with the same ticker up to normalization, the same data type and the same
discriminators, made before the entry's expires_at with a working read, leaves
the state unchanged and returns exactly the stored value. -/
theorem roundtrip_validated (cfg : ConfigSource) (oP : PutOracle) (oG : FsOracle)
    (st : CacheState) (now now2 : Int) (v : PyValue) (ticker ticker2 data_type : String)
    (frequency period : Option String) (kwargs : List (String × String))
    (hen : is_cache_enabled cfg data_type = true)
    (hvt : is_valid_ticker ticker = true)
    (hval : validate_cache_data v data_type = true)
    (hw : oP.blobWrite = .ok) (hg : oP.getsizeOk = true) (hr : oG.readOk = true)
    (hst : sanitize_ticker ticker2 = sanitize_ticker ticker)
    (ht : now2 < now + get_ttl_hours cfg data_type * 3600) :
    get_cached_data cfg oG
        (store_cached_data cfg oP st now v ticker data_type frequency period kwargs).1
        now2 ticker2 data_type frequency period kwargs
      = ((store_cached_data cfg oP st now v ticker data_type frequency period kwargs).1,
         some v) := by
  simp only [store_cached_data, hen, hvt, hw, hg, Bool.not_true, Bool.false_eq_true,
    if_false, save_cache_index, get_cached_data, hst, hr, hval, is_cache_valid,
    fileExists, lookup_updateA_self, Option.isSome, ht, decide_True, Bool.and_true,
    Bool.true_and, if_true]

/-- Witness for C1 at a concrete store/get pair with a case-changed ticker. -/
theorem roundtrip_validated_witness :
    validate_cache_data (.list [.int 3]) "price_data" = true ∧
    sanitize_ticker "aapl" = sanitize_ticker "AAPL" ∧
    get_cached_data ⟨false, fun _ => true, fun _ => 24⟩ ⟨true, true, true⟩
        (store_cached_data ⟨false, fun _ => true, fun _ => 24⟩ ⟨.ok, true, true, true⟩
          ⟨[], [], [], 0⟩ 0 (.list [.int 3]) "AAPL" "price_data" none (some "1y") []).1
        5 "aapl" "price_data" none (some "1y") []
      = ((store_cached_data ⟨false, fun _ => true, fun _ => 24⟩ ⟨.ok, true, true, true⟩
          ⟨[], [], [], 0⟩ 0 (.list [.int 3]) "AAPL" "price_data" none (some "1y") []).1,
         some (.list [.int 3])) :=
  ⟨by decide, by decide,
   roundtrip_validated ⟨false, fun _ => true, fun _ => 24⟩ ⟨.ok, true, true, true⟩
     ⟨true, true, true⟩ ⟨[], [], [], 0⟩ 0 5 (.list [.int 3]) "AAPL" "aapl" "price_data"
     none (some "1y") [] rfl (by decide) (by decide) rfl rfl rfl (by decide) (by decide)⟩

/-- C10: a stored None is indistinguishable from a miss — shape validation
rejects None for every data type, so for every valid ticker and enabled data
type store_cached_data(None, ...) returns true, but the following get for the
same key (still within the TTL window, with a working read) returns None and
evicts the entry from the index. -/
theorem stored_none_miss (cfg : ConfigSource) (oP : PutOracle) (oG : FsOracle)
    (st : CacheState) (now : Int) (ticker data_type : String)
    (frequency period : Option String) (kwargs : List (String × String))
    (hen : is_cache_enabled cfg data_type = true)
    (hvt : is_valid_ticker ticker = true)
    (hw : oP.blobWrite = .ok) (hg : oP.getsizeOk = true) (hr : oG.readOk = true)
    (hnd : (st.index.map Prod.fst).Nodup)
    (ht : now < now + get_ttl_hours cfg data_type * 3600) :
    (store_cached_data cfg oP st now .pyNone ticker data_type frequency period
        kwargs).2 = true ∧
    (get_cached_data cfg oG
        (store_cached_data cfg oP st now .pyNone ticker data_type frequency period
          kwargs).1
        now ticker data_type frequency period kwargs).2 = none ∧
    ((get_cached_data cfg oG
        (store_cached_data cfg oP st now .pyNone ticker data_type frequency period
          kwargs).1
        now ticker data_type frequency period kwargs).1.index.lookup
      (computeKey (sanitize_ticker ticker) data_type frequency period kwargs)) = none ∧
    (∀ dt : String, validate_cache_data .pyNone dt = false) := by
  refine ⟨?_, ?_, ?_, fun dt => rfl⟩
  · simp [store_cached_data, hen, hvt, hw, hg]
  · simp only [store_cached_data, hen, hvt, hw, hg, Bool.not_true, Bool.false_eq_true,
      if_false, save_cache_index, get_cached_data, hr, is_cache_valid, fileExists,
      lookup_updateA_self, Option.isSome, ht, decide_True, Bool.and_true, Bool.true_and,
      if_true, validate_cache_data, isPyNone, if_false]
  · simp only [store_cached_data, hen, hvt, hw, hg, Bool.not_true, Bool.false_eq_true,
      if_false, save_cache_index, get_cached_data, hr, is_cache_valid, fileExists,
      lookup_updateA_self, Option.isSome, ht, decide_True, Bool.and_true, Bool.true_and,
      if_true, validate_cache_data, isPyNone, remove_cache_entry]
    exact lookup_eraseKey_self (keys_updateA_nodup _ _ hnd)

/-- Witness for C10 at a concrete store of None. -/
theorem stored_none_miss_witness :
    (store_cached_data ⟨false, fun _ => true, fun _ => 24⟩ ⟨.ok, true, true, true⟩
        ⟨[], [], [], 0⟩ 0 .pyNone "GOOGL" "company_info" none none []).2 = true ∧
    (get_cached_data ⟨false, fun _ => true, fun _ => 24⟩ ⟨true, true, true⟩
        (store_cached_data ⟨false, fun _ => true, fun _ => 24⟩ ⟨.ok, true, true, true⟩
          ⟨[], [], [], 0⟩ 0 .pyNone "GOOGL" "company_info" none none []).1
        0 "GOOGL" "company_info" none none []).2 = none ∧
    ((get_cached_data ⟨false, fun _ => true, fun _ => 24⟩ ⟨true, true, true⟩
        (store_cached_data ⟨false, fun _ => true, fun _ => 24⟩ ⟨.ok, true, true, true⟩
          ⟨[], [], [], 0⟩ 0 .pyNone "GOOGL" "company_info" none none []).1
        0 "GOOGL" "company_info" none none []).1.index.lookup
      (computeKey (sanitize_ticker "GOOGL") "company_info" none none [])) = none ∧
    (∀ dt : String, validate_cache_data .pyNone dt = false) :=
  stored_none_miss ⟨false, fun _ => true, fun _ => 24⟩ ⟨.ok, true, true, true⟩
    ⟨true, true, true⟩ ⟨[], [], [], 0⟩ 0 "GOOGL" "company_info" none none []
    rfl (by decide) rfl rfl rfl (by decide) (by decide)

/-- C4 (counterexample): when the cache already holds an entry for the same key,
a store whose blob write fails is NOT free of durable effects: the pre-existing
intact blob at the target path is destroyed by the failure cleanup (the open
truncated/overwrote it, and the cleanup unlinks whatever is at the path), so
the on-disk blobs differ from before the call even though false is returned
and the index is unchanged. -/
theorem put_atomicity_counterexample :
    (store_cached_data ⟨true, fun _ => true, fun _ => 24⟩ ⟨.openFail, true, true, true⟩
      ⟨[("AAPL_price_data",
         { cache_key := "AAPL_price_data", ticker := "AAPL", data_type := "price_data",
           frequency := none, period := none, created_at := 0, expires_at := 86400,
           file_path := "cache/price_data/AAPL_price_data.pkl", file_size := 2 })],
        [("cache/price_data/AAPL_price_data.pkl", .good (.list [.int 1]))], [], 0⟩
      10 (.list [.int 2]) "AAPL" "price_data" none none []).2 = false ∧
    (⟨[("AAPL_price_data",
        { cache_key := "AAPL_price_data", ticker := "AAPL", data_type := "price_data",
          frequency := none, period := none, created_at := 0, expires_at := 86400,
          file_path := "cache/price_data/AAPL_price_data.pkl", file_size := 2 })],
       [("cache/price_data/AAPL_price_data.pkl", .good (.list [.int 1]))], [], 0⟩ :
      CacheState).files.lookup "cache/price_data/AAPL_price_data.pkl"
      = some (.good (.list [.int 1])) ∧
    (store_cached_data ⟨true, fun _ => true, fun _ => 24⟩ ⟨.openFail, true, true, true⟩
      ⟨[("AAPL_price_data",
         { cache_key := "AAPL_price_data", ticker := "AAPL", data_type := "price_data",
           frequency := none, period := none, created_at := 0, expires_at := 86400,
           file_path := "cache/price_data/AAPL_price_data.pkl", file_size := 2 })],
        [("cache/price_data/AAPL_price_data.pkl", .good (.list [.int 1]))], [], 0⟩
      10 (.list [.int 2]) "AAPL" "price_data" none none
      []).1.files.lookup "cache/price_data/AAPL_price_data.pkl" = none :=
  ⟨rfl, rfl, rfl⟩

/-- C4 (amended): on a serialization / blob-I/O failure (and likewise a getsize
failure) store_cached_data returns false with the index, the persisted index
and the save counter unchanged, and — when the cleanup unlink itself succeeds —
no blob, partial or otherwise, remains at the target path, while blobs at
every other path are untouched; in particular a pre-existing blob for the same
key is deleted by the cleanup rather than preserved. -/
theorem put_failure_cleanup (cfg : ConfigSource) (oP : PutOracle) (st : CacheState)
    (now : Int) (data : PyValue) (ticker data_type : String)
    (frequency period : Option String) (kwargs : List (String × String))
    (hen : is_cache_enabled cfg data_type = true)
    (hvt : is_valid_ticker ticker = true)
    (hfail : oP.blobWrite ≠ .ok ∨ oP.getsizeOk = false)
    (hul : oP.unlinkOk = true)
    (hndf : (st.files.map Prod.fst).Nodup) :
    (store_cached_data cfg oP st now data ticker data_type frequency period kwargs).2
      = false ∧
    (store_cached_data cfg oP st now data ticker data_type frequency period
      kwargs).1.index = st.index ∧
    (store_cached_data cfg oP st now data ticker data_type frequency period
      kwargs).1.savedIndex = st.savedIndex ∧
    (store_cached_data cfg oP st now data ticker data_type frequency period
      kwargs).1.saveCount = st.saveCount ∧
    (store_cached_data cfg oP st now data ticker data_type frequency period
      kwargs).1.files.lookup
      (cache_file_path data_type
        (computeKey (sanitize_ticker ticker) data_type frequency period kwargs)) = none ∧
    (∀ p, p ≠ cache_file_path data_type
        (computeKey (sanitize_ticker ticker) data_type frequency period kwargs) →
      (store_cached_data cfg oP st now data ticker data_type frequency period
        kwargs).1.files.lookup p = st.files.lookup p) := by
  cases hbw : oP.blobWrite with
  | ok =>
    rcases hfail with h | h
    · exact absurd hbw h
    · simp only [store_cached_data, hen, hvt, hbw, h, Bool.not_true, Bool.false_eq_true,
        if_false, Bool.not_false, if_true, cleanup_failed_write, fileExists,
        lookup_updateA_self, Option.isSome, hul, Bool.and_true]
      refine ⟨trivial, trivial, trivial, trivial,
        lookup_eraseKey_self (keys_updateA_nodup _ _ hndf), fun p hp => ?_⟩
      rw [lookup_eraseKey_ne _ hp, lookup_updateA_ne _ hp]
  | openFail =>
    simp only [store_cached_data, hen, hvt, hbw, Bool.not_true, Bool.false_eq_true,
      if_false, cleanup_failed_write, hul, Bool.and_true]
    by_cases hex : fileExists st
        (cache_file_path data_type
          (computeKey (sanitize_ticker ticker) data_type frequency period kwargs)) = true
    · simp only [hex, if_true]
      exact ⟨trivial, trivial, trivial, trivial, lookup_eraseKey_self hndf,
        fun p hp => lookup_eraseKey_ne _ hp⟩
    · simp only [Bool.not_eq_true] at hex
      simp only [hex, Bool.false_eq_true, if_false]
      exact ⟨trivial, trivial, trivial, trivial, lookup_eq_none_of_not_fileExists hex,
        fun p hp => trivial⟩
  | writeFail =>
    simp only [store_cached_data, hen, hvt, hbw, Bool.not_true, Bool.false_eq_true,
      if_false, cleanup_failed_write, fileExists, lookup_updateA_self, Option.isSome,
      hul, Bool.and_true, if_true]
    refine ⟨trivial, trivial, trivial, trivial,
      lookup_eraseKey_self (keys_updateA_nodup _ _ hndf), fun p hp => ?_⟩
    rw [lookup_eraseKey_ne _ hp, lookup_updateA_ne _ hp]

/-- Witness for C4 at a concrete failing store over a non-empty filesystem. -/
theorem put_failure_cleanup_witness :
    (store_cached_data ⟨false, fun _ => true, fun _ => 24⟩ ⟨.writeFail, true, true, true⟩
      ⟨[], [("other", .good (.int 9))], [], 3⟩ 0 (.int 1) "AAPL" "price_data"
      none none []).2 = false ∧
    (store_cached_data ⟨false, fun _ => true, fun _ => 24⟩ ⟨.writeFail, true, true, true⟩
      ⟨[], [("other", .good (.int 9))], [], 3⟩ 0 (.int 1) "AAPL" "price_data"
      none none []).1.files.lookup
      (cache_file_path "price_data"
        (computeKey (sanitize_ticker "AAPL") "price_data" none none [])) = none ∧
    (store_cached_data ⟨false, fun _ => true, fun _ => 24⟩ ⟨.writeFail, true, true, true⟩
      ⟨[], [("other", .good (.int 9))], [], 3⟩ 0 (.int 1) "AAPL" "price_data"
      none none []).1.saveCount = 3 :=
  ⟨(put_failure_cleanup ⟨false, fun _ => true, fun _ => 24⟩ ⟨.writeFail, true, true, true⟩
      ⟨[], [("other", .good (.int 9))], [], 3⟩ 0 (.int 1) "AAPL" "price_data"
      none none [] rfl (by decide) (Or.inl (by decide)) rfl (by decide)).1,
   (put_failure_cleanup ⟨false, fun _ => true, fun _ => 24⟩ ⟨.writeFail, true, true, true⟩
      ⟨[], [("other", .good (.int 9))], [], 3⟩ 0 (.int 1) "AAPL" "price_data"
      none none [] rfl (by decide) (Or.inl (by decide)) rfl (by decide)).2.2.2.2.1,
   (put_failure_cleanup ⟨false, fun _ => true, fun _ => 24⟩ ⟨.writeFail, true, true, true⟩
      ⟨[], [("other", .good (.int 9))], [], 3⟩ 0 (.int 1) "AAPL" "price_data"
      none none [] rfl (by decide) (Or.inl (by decide)) rfl (by decide)).2.2.2.1⟩

/-- C7 (counterexample): an indexed entry whose backing blob is missing is NOT
evicted by get_cached_data when its data type has caching disabled: the
disabled check short-circuits before the index is consulted, so get returns
None but the orphaned entry stays in the index, refuting the claim for every
indexed entry. -/
theorem orphan_heal_counterexample :
    fileExists
      (⟨[("AAPL_price_data",
          { cache_key := "AAPL_price_data", ticker := "AAPL", data_type := "price_data",
            frequency := none, period := none, created_at := 0, expires_at := 86400,
            file_path := "cache/price_data/AAPL_price_data.pkl", file_size := 2 })],
         [], [], 0⟩ : CacheState) "cache/price_data/AAPL_price_data.pkl" = false ∧
    (get_cached_data ⟨true, fun _ => false, fun _ => 24⟩ ⟨true, true, true⟩
      ⟨[("AAPL_price_data",
         { cache_key := "AAPL_price_data", ticker := "AAPL", data_type := "price_data",
           frequency := none, period := none, created_at := 0, expires_at := 86400,
           file_path := "cache/price_data/AAPL_price_data.pkl", file_size := 2 })],
        [], [], 0⟩
      10 "AAPL" "price_data" none none []).2 = none ∧
    (get_cached_data ⟨true, fun _ => false, fun _ => 24⟩ ⟨true, true, true⟩
      ⟨[("AAPL_price_data",
         { cache_key := "AAPL_price_data", ticker := "AAPL", data_type := "price_data",
           frequency := none, period := none, created_at := 0, expires_at := 86400,
           file_path := "cache/price_data/AAPL_price_data.pkl", file_size := 2 })],
        [], [], 0⟩
      10 "AAPL" "price_data" none none []).1.index.lookup "AAPL_price_data"
      = some { cache_key := "AAPL_price_data", ticker := "AAPL",
               data_type := "price_data", frequency := none, period := none,
               created_at := 0, expires_at := 86400,
               file_path := "cache/price_data/AAPL_price_data.pkl", file_size := 2 } :=
  ⟨rfl, rfl, rfl⟩

/-- C7 (amended): provided caching is enabled for the data type, a get that
reaches an indexed entry which is expired or whose backing blob is missing
returns None, removes the entry from the in-memory index, persists the pruned
index, and the entry no longer appears in list_cache_entries. -/
theorem orphan_self_heal (cfg : ConfigSource) (oG : FsOracle) (st : CacheState)
    (now : Int) (ticker data_type key : String) (frequency period : Option String)
    (kwargs : List (String × String)) (md : CacheMetadata)
    (hkey : key = computeKey (sanitize_ticker ticker) data_type frequency period kwargs)
    (hen : is_cache_enabled cfg data_type = true)
    (hnd : (st.index.map Prod.fst).Nodup)
    (hwf : ∀ p ∈ st.index, p.2.cache_key = p.1)
    (hl : st.index.lookup key = some md)
    (hinv : is_cache_valid st now md = false)
    (hsv : oG.saveOk = true) :
    (get_cached_data cfg oG st now ticker data_type frequency period kwargs).2 = none ∧
    (get_cached_data cfg oG st now ticker data_type frequency period kwargs).1.index
      = eraseKey st.index key ∧
    (get_cached_data cfg oG st now ticker data_type frequency period
      kwargs).1.index.lookup key = none ∧
    (get_cached_data cfg oG st now ticker data_type frequency period kwargs).1.savedIndex
      = eraseKey st.index key ∧
    (get_cached_data cfg oG st now ticker data_type frequency period kwargs).1.saveCount
      = st.saveCount + 1 ∧
    (∀ e ∈ list_cache_entries
        (get_cached_data cfg oG st now ticker data_type frequency period kwargs).1
        none none, e.cache_key ≠ key) := by
  have hred : get_cached_data cfg oG st now ticker data_type frequency period kwargs
      = (remove_cache_entry oG st key, none) := by
    simp only [get_cached_data, hen, Bool.not_true, Bool.false_eq_true, if_false,
      ← hkey, hl, hinv, Bool.not_false, if_true]
  have hrem : remove_cache_entry oG st key =
      save_cache_index oG.saveOk
        { st with index := eraseKey st.index key,
                  files := if oG.removeOk then eraseKey st.files md.file_path
                           else st.files } := by
    simp only [remove_cache_entry, hl]
  rw [hred, hrem]
  simp only [save_cache_index, hsv, if_true]
  refine ⟨trivial, trivial, lookup_eraseKey_self hnd, trivial, trivial, fun e he => ?_⟩
  simp only [list_cache_entries] at he
  have hmem := ((List.mergeSort_perm _ _).mem_iff).mp he
  rcases List.mem_filter.mp hmem with ⟨hmem2, _⟩
  rcases List.mem_map.mp hmem2 with ⟨q, hq, hqe⟩
  have hq2 : q ∈ st.index.filter (fun p => !(decide (p.1 = key))) := by
    rw [← eraseKey_eq_filter hnd]
    exact hq
  rcases List.mem_filter.mp hq2 with ⟨hqmem, hqne⟩
  have hqk : q.2.cache_key = q.1 := hwf q hqmem
  intro hc
  rw [← hqe, hqk] at hc
  simp [hc] at hqne

/-- Witness for C7: an orphaned entry (blob deleted out-of-band) is healed by
the next get. -/
theorem orphan_self_heal_witness :
    is_cache_valid
      (⟨[("AAPL_price_data",
          { cache_key := "AAPL_price_data", ticker := "AAPL", data_type := "price_data",
            frequency := none, period := none, created_at := 0, expires_at := 86400,
            file_path := "cache/price_data/AAPL_price_data.pkl", file_size := 2 })],
         [], [], 0⟩ : CacheState) 10
      { cache_key := "AAPL_price_data", ticker := "AAPL", data_type := "price_data",
        frequency := none, period := none, created_at := 0, expires_at := 86400,
        file_path := "cache/price_data/AAPL_price_data.pkl", file_size := 2 } = false ∧
    (get_cached_data ⟨false, fun _ => true, fun _ => 24⟩ ⟨true, true, true⟩
      ⟨[("AAPL_price_data",
         { cache_key := "AAPL_price_data", ticker := "AAPL", data_type := "price_data",
           frequency := none, period := none, created_at := 0, expires_at := 86400,
           file_path := "cache/price_data/AAPL_price_data.pkl", file_size := 2 })],
        [], [], 0⟩
      10 "AAPL" "price_data" none none []).2 = none ∧
    (get_cached_data ⟨false, fun _ => true, fun _ => 24⟩ ⟨true, true, true⟩
      ⟨[("AAPL_price_data",
         { cache_key := "AAPL_price_data", ticker := "AAPL", data_type := "price_data",
           frequency := none, period := none, created_at := 0, expires_at := 86400,
           file_path := "cache/price_data/AAPL_price_data.pkl", file_size := 2 })],
        [], [], 0⟩
      10 "AAPL" "price_data" none none []).1.index.lookup "AAPL_price_data" = none ∧
    (∀ e ∈ list_cache_entries
        (get_cached_data ⟨false, fun _ => true, fun _ => 24⟩ ⟨true, true, true⟩
          ⟨[("AAPL_price_data",
             { cache_key := "AAPL_price_data", ticker := "AAPL",
               data_type := "price_data", frequency := none, period := none,
               created_at := 0, expires_at := 86400,
               file_path := "cache/price_data/AAPL_price_data.pkl", file_size := 2 })],
            [], [], 0⟩
          10 "AAPL" "price_data" none none []).1
        none none, e.cache_key ≠ "AAPL_price_data") := by
  have h := orphan_self_heal ⟨false, fun _ => true, fun _ => 24⟩ ⟨true, true, true⟩
    ⟨[("AAPL_price_data",
       { cache_key := "AAPL_price_data", ticker := "AAPL", data_type := "price_data",
         frequency := none, period := none, created_at := 0, expires_at := 86400,
         file_path := "cache/price_data/AAPL_price_data.pkl", file_size := 2 })],
      [], [], 0⟩
    10 "AAPL" "price_data" "AAPL_price_data" none none []
    { cache_key := "AAPL_price_data", ticker := "AAPL", data_type := "price_data",
      frequency := none, period := none, created_at := 0, expires_at := 86400,
      file_path := "cache/price_data/AAPL_price_data.pkl", file_size := 2 }
    (by decide) rfl (by decide) (by decide) rfl rfl rfl
  exact ⟨rfl, h.1, h.2.2.1, h.2.2.2.2.2⟩

/-- C5 (counterexample): for an index entry whose blob file is missing from
disk, the per-type breakdown still adds its file_size while total_size_bytes
skips it, so the claimed equality of the per-type size sum with
total_size_bytes fails on such a state (here: one orphaned entry of recorded
size 5 gives per-type sum 5 but total_size_bytes 0). -/
theorem stats_sizes_counterexample :
    ((get_cache_stats ⟨true, fun _ => true, fun _ => 24⟩
      ⟨[("K", { cache_key := "K", ticker := "AAPL", data_type := "price_data",
                frequency := none, period := none, created_at := 0, expires_at := 10,
                file_path := "gone", file_size := 5 })], [], [], 0⟩
      0).stats_by_type.map (fun p => p.2.2)).sum = 5 ∧
    (get_cache_stats ⟨true, fun _ => true, fun _ => 24⟩
      ⟨[("K", { cache_key := "K", ticker := "AAPL", data_type := "price_data",
                frequency := none, period := none, created_at := 0, expires_at := 10,
                file_path := "gone", file_size := 5 })], [], [], 0⟩
      0).total_size_bytes = 0 :=
  ⟨rfl, rfl⟩

/-- C5 (amended): the sum over data types of the per-type counts always equals
total_entries, and the sum of the per-type sizes equals total_size_bytes
whenever every indexed entry's blob exists on disk (the per-type breakdown
always adds file_size, while total_size_bytes skips entries whose blob is
missing); get_cache_stats only reads the index (it returns a stats record and
no state). -/
theorem stats_consistency (cfg : ConfigSource) (st : CacheState) (now : Int) :
    ((get_cache_stats cfg st now).stats_by_type.map (fun p => p.2.1)).sum
      = (get_cache_stats cfg st now).total_entries ∧
    ((∀ p ∈ st.index, fileExists st p.2.file_path = true) →
      ((get_cache_stats cfg st now).stats_by_type.map (fun p => p.2.2)).sum
        = (get_cache_stats cfg st now).total_size_bytes) := by
  constructor
  · simp only [get_cache_stats, sumCounts_foldl_bumpType, List.map_nil, List.sum_nil,
      List.length_map, Nat.zero_add]
  · intro hall
    simp only [get_cache_stats, sumSizes_foldl_bumpType, List.map_nil, List.sum_nil,
      Nat.zero_add]
    congr 1
    apply List.map_congr_left
    intro md hmd
    rcases List.mem_map.mp hmd with ⟨p, hp, hpe⟩
    have := hall p hp
    rw [hpe] at this
    simp [this]

/-- Witness for C5 on a two-entry state whose blobs are both present. -/
theorem stats_consistency_witness :
    (∀ p ∈ stAB.index, fileExists stAB p.2.file_path = true) ∧
    ((get_cache_stats cfgAll stAB 15).stats_by_type.map (fun p => p.2.1)).sum
      = (get_cache_stats cfgAll stAB 15).total_entries ∧
    ((get_cache_stats cfgAll stAB 15).stats_by_type.map (fun p => p.2.2)).sum
      = (get_cache_stats cfgAll stAB 15).total_size_bytes :=
  ⟨by decide, (stats_consistency cfgAll stAB 15).1,
   (stats_consistency cfgAll stAB 15).2 (by decide)⟩

/-- Master lemma for the invalidation family: removing a duplicate-free list of
present keys (with working deletes and persists) filters exactly those keys
out of the index, persists once per removed key, ends with the pruned index
persisted, deletes exactly the matched blobs and leaves other paths alone. -/
theorem removeKeys_spec (keys : List String) (o : FsOracle)
    (hro : o.removeOk = true) (hso : o.saveOk = true) :
    ∀ st : CacheState, (st.index.map Prod.fst).Nodup →
    (st.files.map Prod.fst).Nodup → keys.Nodup →
    (∀ k ∈ keys, k ∈ st.index.map Prod.fst) →
    (removeKeys o st keys).index
        = st.index.filter (fun p => !(keys.contains p.1)) ∧
    (removeKeys o st keys).saveCount = st.saveCount + keys.length ∧
    (keys = [] → removeKeys o st keys = st) ∧
    (keys ≠ [] → (removeKeys o st keys).savedIndex = (removeKeys o st keys).index) ∧
    (∀ k ∈ keys, ∀ md, st.index.lookup k = some md →
      (removeKeys o st keys).files.lookup md.file_path = none) ∧
    (∀ path, (∀ k ∈ keys, ∀ md, st.index.lookup k = some md → md.file_path ≠ path) →
      (removeKeys o st keys).files.lookup path = st.files.lookup path) ∧
    (∀ path, st.files.lookup path = none →
      (removeKeys o st keys).files.lookup path = none) := by
  induction keys with
  | nil =>
    intro st hnd hndf hkd hkm
    refine ⟨?_, by simp [removeKeys], fun _ => rfl, fun h => absurd rfl h,
      fun k hk => absurd hk (List.not_mem_nil k), fun path _ => rfl, fun path h => h⟩
    have : st.index.filter (fun p => !(([] : List String).contains p.1)) = st.index := by
      simp
    rw [this]
    rfl
  | cons k rest ih =>
    intro st hnd hndf hkd hkm
    obtain ⟨hkne, hrest_nd⟩ := List.nodup_cons.mp hkd
    obtain ⟨mdk, hlk⟩ :=
      lookup_some_of_mem_keys (hkm k (List.mem_cons_self k rest))
    have h1i : (remove_cache_entry o st k).index = eraseKey st.index k := by
      simp [remove_cache_entry, hlk, save_cache_index]
    have h1f : (remove_cache_entry o st k).files = eraseKey st.files mdk.file_path := by
      simp [remove_cache_entry, hlk, hro, save_cache_index]
    have h1s : (remove_cache_entry o st k).savedIndex = eraseKey st.index k := by
      simp [remove_cache_entry, hlk, hso, save_cache_index]
    have h1c : (remove_cache_entry o st k).saveCount = st.saveCount + 1 := by
      simp [remove_cache_entry, hlk, save_cache_index]
    have hrw : removeKeys o st (k :: rest)
        = removeKeys o (remove_cache_entry o st k) rest := rfl
    have hnd1 : ((remove_cache_entry o st k).index.map Prod.fst).Nodup := by
      rw [h1i]
      exact keys_eraseKey_nodup k hnd
    have hndf1 : ((remove_cache_entry o st k).files.map Prod.fst).Nodup := by
      rw [h1f]
      exact keys_eraseKey_nodup _ hndf
    have hkm1 : ∀ k2 ∈ rest, k2 ∈ (remove_cache_entry o st k).index.map Prod.fst := by
      intro k2 hk2
      have hne : k2 ≠ k := fun he => hkne (he ▸ hk2)
      rw [h1i, ← lookup_isSome_iff_mem, lookup_eraseKey_ne _ hne,
        lookup_isSome_iff_mem]
      exact hkm k2 (List.mem_cons_of_mem _ hk2)
    obtain ⟨ih1, ih2, ih3, ih4, ih5, ih6, ih7⟩ :=
      ih (remove_cache_entry o st k) hnd1 hndf1 hrest_nd hkm1
    refine ⟨?_, ?_, ?_, ?_, ?_, ?_, ?_⟩
    · rw [hrw, ih1, h1i, eraseKey_eq_filter hnd, List.filter_filter]
      apply List.filter_congr
      intro x hx
      rw [List.contains_cons, Bool.not_or, string_beq_eq_decide, Bool.and_comm]
    · rw [hrw, ih2, h1c]
      simp only [List.length_cons]
      omega
    · intro h
      exact absurd h (by simp)
    · intro _
      cases rest with
      | nil =>
        rw [hrw]
        show (remove_cache_entry o st k).savedIndex = _
        rw [h1s, ih1, h1i]
        have : (eraseKey st.index k).filter
            (fun p => !(([] : List String).contains p.1)) = eraseKey st.index k := by
          simp
        rw [this]
      | cons r rs =>
        rw [hrw]
        exact ih4 (by simp)
    · intro k2 hk2 md2 hl2
      rcases List.mem_cons.mp hk2 with he | hmem
      · subst he
        rw [hlk] at hl2
        have hmd : md2 = mdk := by
          injection hl2.symm
        subst hmd
        rw [hrw]
        apply ih7
        rw [h1f]
        exact lookup_eraseKey_self hndf
      · have hne : k2 ≠ k := fun he => hkne (he ▸ hmem)
        rw [hrw]
        apply ih5 k2 hmem md2
        rw [h1i, lookup_eraseKey_ne _ hne]
        exact hl2
    · intro path hpa
      rw [hrw]
      have hside : ∀ k2 ∈ rest, ∀ md2,
          (remove_cache_entry o st k).index.lookup k2 = some md2 →
          md2.file_path ≠ path := by
        intro k2 hk2 md2 hl2
        have hne : k2 ≠ k := fun he => hkne (he ▸ hk2)
        rw [h1i, lookup_eraseKey_ne _ hne] at hl2
        exact hpa k2 (List.mem_cons_of_mem _ hk2) md2 hl2
      rw [ih6 path hside, h1f,
        lookup_eraseKey_ne _ (Ne.symm (hpa k (List.mem_cons_self k rest) mdk hlk))]
    · intro path hnone
      rw [hrw]
      apply ih7
      rw [h1f]
      exact lookup_eraseKey_none hnone

/-- Bridge from the master removal lemma to the clean_* functions, which all
collect the keys of the entries matched by some predicate and then remove
them. -/
theorem removeKeys_filter_spec (φ : String × CacheMetadata → Bool) (o : FsOracle)
    (st : CacheState) (hro : o.removeOk = true) (hso : o.saveOk = true)
    (hnd : (st.index.map Prod.fst).Nodup) (hndf : (st.files.map Prod.fst).Nodup) :
    (removeKeys o st ((st.index.filter φ).map (fun p => p.1))).index
        = st.index.filter (fun p => !(φ p)) ∧
    (removeKeys o st ((st.index.filter φ).map (fun p => p.1))).saveCount
        = st.saveCount + (st.index.filter φ).length ∧
    (st.index.filter φ = [] →
      removeKeys o st ((st.index.filter φ).map (fun p => p.1)) = st) ∧
    (st.index.filter φ ≠ [] →
      (removeKeys o st ((st.index.filter φ).map (fun p => p.1))).savedIndex
        = (removeKeys o st ((st.index.filter φ).map (fun p => p.1))).index) ∧
    (∀ p ∈ st.index, φ p = true →
      (removeKeys o st ((st.index.filter φ).map (fun p => p.1))).files.lookup
        p.2.file_path = none) ∧
    (∀ path, (∀ p ∈ st.index, φ p = true → p.2.file_path ≠ path) →
      (removeKeys o st ((st.index.filter φ).map (fun p => p.1))).files.lookup path
        = st.files.lookup path) := by
  have hkd : ((st.index.filter φ).map (fun p => p.1)).Nodup := by
    have hsub : ((st.index.filter φ).map (fun p => p.1)).Sublist
        (st.index.map Prod.fst) := (List.filter_sublist st.index).map _
    exact hnd.sublist hsub
  have hkm : ∀ k ∈ (st.index.filter φ).map (fun p => p.1),
      k ∈ st.index.map Prod.fst := by
    intro k hk
    rcases List.mem_map.mp hk with ⟨q, hq, hqe⟩
    exact hqe ▸ List.mem_map_of_mem Prod.fst ((List.mem_filter.mp hq).1)
  obtain ⟨m1, m2, m3, m4, m5, m6, _⟩ :=
    removeKeys_spec ((st.index.filter φ).map (fun p => p.1)) o hro hso st
      hnd hndf hkd hkm
  have hcont : ∀ p ∈ st.index,
      (((st.index.filter φ).map (fun q => q.1)).contains p.1) = φ p := by
    intro p hp
    cases hb : ((st.index.filter φ).map (fun q => q.1)).contains p.1 with
    | true =>
      have hpm : p.1 ∈ (st.index.filter φ).map (fun q => q.1) := List.elem_iff.mp hb
      rcases List.mem_map.mp hpm with ⟨q, hq, hqe⟩
      rcases List.mem_filter.mp hq with ⟨hqmem, hqφ⟩
      have hqp : q = p := List.inj_on_of_nodup_map hnd hqmem hp hqe
      rw [hqp] at hqφ
      exact hqφ.symm
    | false =>
      cases hφ : φ p with
      | false => rfl
      | true =>
        have hpm : p.1 ∈ (st.index.filter φ).map (fun q => q.1) :=
          List.mem_map_of_mem _ (List.mem_filter.mpr ⟨hp, hφ⟩)
        have hmm := List.elem_iff.mpr hpm
        have hb2 : List.elem p.1 ((st.index.filter φ).map (fun q => q.1)) = false := hb
        rw [hmm] at hb2
        exact hb2.symm
  refine ⟨?_, ?_, ?_, ?_, ?_, ?_⟩
  · rw [m1]
    apply List.filter_congr
    intro x hx
    rw [hcont x hx]
  · rw [m2, List.length_map]
  · intro h
    apply m3
    rw [h]
    rfl
  · intro h
    apply m4
    intro hc
    exact h (List.map_eq_nil_iff.mp hc)
  · intro p hp hφ
    have hpm : p.1 ∈ (st.index.filter φ).map (fun q => q.1) :=
      List.mem_map_of_mem _ (List.mem_filter.mpr ⟨hp, hφ⟩)
    exact m5 p.1 hpm p.2 (lookup_of_mem_nodup hnd hp)
  · intro path hpa
    apply m6
    intro k hk md hl
    rcases List.mem_map.mp hk with ⟨q, hq, hqe⟩
    rcases List.mem_filter.mp hq with ⟨hqmem, hqφ⟩
    have hlq : st.index.lookup q.1 = some q.2 := lookup_of_mem_nodup hnd hqmem
    rw [hqe] at hlq
    rw [hl] at hlq
    have hmd : md = q.2 := by
      injection hlq
    rw [hmd]
    exact hpa q hqmem hqφ

/-- C8 (counterexample): clean_ticker_cache does NOT persist the index once at
the end of the operation: it persists once per removed entry (inside
_remove_cache_entry). Removing the two AAPL entries of a three-entry cache
performs two index persists, not one. -/
theorem clean_persist_counterexample :
    (clean_ticker_cache ⟨true, true, true⟩ stAAB "AAPL").2 = 2 ∧
    stAAB.saveCount = 0 ∧
    (clean_ticker_cache ⟨true, true, true⟩ stAAB "AAPL").1.saveCount = 2 :=
  ⟨rfl, rfl, rfl⟩

/-- C8 (amended): each member of the invalidation family removes exactly the
matching entries from the index (deleting each matched entry's backing blob
and leaving blobs at non-matched paths untouched), returns the number of
entries removed, and persists the index once per removed entry — the final
persisted index being the pruned index whenever at least one entry was
removed, and no persist happening when nothing matches. -/
theorem clean_family_spec (o : FsOracle) (st : CacheState) (ticker data_type : String)
    (now : Int) (hro : o.removeOk = true) (hso : o.saveOk = true)
    (hnd : (st.index.map Prod.fst).Nodup) (hndf : (st.files.map Prod.fst).Nodup) :
    ((clean_ticker_cache o st ticker).2
        = (st.index.filter
            (fun p => decide (p.2.ticker = pyUpper (sanitize_ticker ticker)))).length ∧
      (clean_ticker_cache o st ticker).1.index
        = st.index.filter
            (fun p => !(decide (p.2.ticker = pyUpper (sanitize_ticker ticker)))) ∧
      (clean_ticker_cache o st ticker).1.saveCount
        = st.saveCount + (clean_ticker_cache o st ticker).2 ∧
      ((clean_ticker_cache o st ticker).2 = 0 → (clean_ticker_cache o st ticker).1 = st) ∧
      ((clean_ticker_cache o st ticker).2 ≠ 0 →
        (clean_ticker_cache o st ticker).1.savedIndex
          = (clean_ticker_cache o st ticker).1.index) ∧
      (∀ p ∈ st.index, p.2.ticker = pyUpper (sanitize_ticker ticker) →
        (clean_ticker_cache o st ticker).1.files.lookup p.2.file_path = none) ∧
      (∀ path, (∀ p ∈ st.index, p.2.ticker = pyUpper (sanitize_ticker ticker) →
          p.2.file_path ≠ path) →
        (clean_ticker_cache o st ticker).1.files.lookup path
          = st.files.lookup path)) ∧
    ((clean_data_type_cache o st data_type).2
        = (st.index.filter (fun p => decide (p.2.data_type = data_type))).length ∧
      (clean_data_type_cache o st data_type).1.index
        = st.index.filter (fun p => !(decide (p.2.data_type = data_type))) ∧
      (clean_data_type_cache o st data_type).1.saveCount
        = st.saveCount + (clean_data_type_cache o st data_type).2 ∧
      (∀ p ∈ st.index, p.2.data_type = data_type →
        (clean_data_type_cache o st data_type).1.files.lookup p.2.file_path = none) ∧
      (∀ path, (∀ p ∈ st.index, p.2.data_type = data_type → p.2.file_path ≠ path) →
        (clean_data_type_cache o st data_type).1.files.lookup path
          = st.files.lookup path)) ∧
    ((clean_expired_cache o st now).2
        = (st.index.filter (fun p => expiredOrOrphan st now p.2)).length ∧
      (clean_expired_cache o st now).1.index
        = st.index.filter (fun p => !(expiredOrOrphan st now p.2)) ∧
      (clean_expired_cache o st now).1.saveCount
        = st.saveCount + (clean_expired_cache o st now).2 ∧
      (∀ p ∈ st.index, expiredOrOrphan st now p.2 = true →
        (clean_expired_cache o st now).1.files.lookup p.2.file_path = none) ∧
      (∀ path, (∀ p ∈ st.index, expiredOrOrphan st now p.2 = true →
          p.2.file_path ≠ path) →
        (clean_expired_cache o st now).1.files.lookup path = st.files.lookup path)) ∧
    ((clean_all_cache o st).2 = st.index.length ∧
      (clean_all_cache o st).1.index = [] ∧
      (clean_all_cache o st).1.saveCount = st.saveCount + st.index.length ∧
      (∀ p ∈ st.index,
        (clean_all_cache o st).1.files.lookup p.2.file_path = none)) := by
  refine ⟨?_, ?_, ?_, ?_⟩
  · obtain ⟨b1, b2, b3, b4, b5, b6⟩ := removeKeys_filter_spec
      (fun p => decide (p.2.ticker = pyUpper (sanitize_ticker ticker))) o st
      hro hso hnd hndf
    simp only [clean_ticker_cache]
    have hlen : ((st.index.filter
        (fun p => decide (p.2.ticker = pyUpper (sanitize_ticker ticker)))).map
        (fun p => p.1)).length
        = (st.index.filter
            (fun p => decide (p.2.ticker = pyUpper (sanitize_ticker ticker)))).length :=
      List.length_map _ _
    refine ⟨hlen, b1, by rw [b2, hlen], ?_, ?_, ?_, ?_⟩
    · intro h
      rw [hlen] at h
      exact b3 (List.length_eq_zero.mp h)
    · intro h
      rw [hlen] at h
      refine b4 (fun hnil => h ?_)
      rw [hnil]
      rfl
    · intro p hp hφ
      exact b5 p hp (decide_eq_true hφ)
    · intro path h
      refine b6 path (fun p hp hφ => h p hp (of_decide_eq_true hφ))
  · obtain ⟨b1, b2, b3, b4, b5, b6⟩ := removeKeys_filter_spec
      (fun p => decide (p.2.data_type = data_type)) o st hro hso hnd hndf
    simp only [clean_data_type_cache]
    have hlen : ((st.index.filter
        (fun p => decide (p.2.data_type = data_type))).map (fun p => p.1)).length
        = (st.index.filter (fun p => decide (p.2.data_type = data_type))).length :=
      List.length_map _ _
    refine ⟨hlen, b1, by rw [b2, hlen], ?_, ?_⟩
    · intro p hp hφ
      exact b5 p hp (decide_eq_true hφ)
    · intro path h
      refine b6 path (fun p hp hφ => h p hp (of_decide_eq_true hφ))
  · obtain ⟨b1, b2, b3, b4, b5, b6⟩ := removeKeys_filter_spec
      (fun p => expiredOrOrphan st now p.2) o st hro hso hnd hndf
    simp only [clean_expired_cache]
    have hlen : ((st.index.filter
        (fun p => expiredOrOrphan st now p.2)).map (fun p => p.1)).length
        = (st.index.filter (fun p => expiredOrOrphan st now p.2)).length :=
      List.length_map _ _
    exact ⟨hlen, b1, by rw [b2, hlen], b5, b6⟩
  · obtain ⟨b1, b2, b3, b4, b5, b6⟩ := removeKeys_filter_spec
      (fun _ => true) o st hro hso hnd hndf
    have hfa : st.index.filter (fun _ => true) = st.index := List.filter_true st.index
    rw [hfa] at b1 b2 b5
    simp only [clean_all_cache]
    refine ⟨List.length_map _ _, ?_, by rw [b2], ?_⟩
    · rw [b1]
      exact List.filter_false st.index
    · intro p hp
      exact b5 p hp rfl

/-- Witness for C8 on a three-entry state: evicting ticker AAPL removes two
entries, leaves the MSFT entry, and persists twice; evicting everything
removes all three. -/
theorem clean_family_spec_witness :
    (clean_ticker_cache ⟨true, true, true⟩ stAAB "AAPL").2
      = (stAAB.index.filter
          (fun p => decide (p.2.ticker = pyUpper (sanitize_ticker "AAPL")))).length ∧
    (clean_ticker_cache ⟨true, true, true⟩ stAAB "AAPL").2 = 2 ∧
    (clean_ticker_cache ⟨true, true, true⟩ stAAB "AAPL").1.index = [("B", mdB)] ∧
    (clean_all_cache ⟨true, true, true⟩ stAAB).1.index = [] ∧
    (clean_all_cache ⟨true, true, true⟩ stAAB).2 = 3 :=
  ⟨((clean_family_spec ⟨true, true, true⟩ stAAB "AAPL" "price_data" 0 rfl rfl
      (by decide) (by decide)).1).1,
   rfl, rfl,
   ((clean_family_spec ⟨true, true, true⟩ stAAB "AAPL" "price_data" 0 rfl rfl
      (by decide) (by decide)).2.2.2).2.1,
   rfl⟩

end MarketCache
